import Mathlib

/-!
Verification of the mediator / remote-control system ("water").

The broker state machine of `mediator_server.py` is embedded shallowly:
the `MediatorServer` instance fields become the `ServerState` record, each
handler method becomes a pure function `ServerState → ServerState × List Send`,
and Python `dict`s become insertion-ordered association lists with the helpers
`dlookup` / `dinsert` / `dupdate` / `derase` (Python dict assignment updates an
existing key in place and appends a fresh key at the end; `del` removes it).
Sockets are elided: a message send to a destination either succeeds, recorded
in the output list, or fails, which is decided by an adversarial predicate
`fails : Dest → Bool` standing for the `except` branches around `socket.send`.
`datetime` fields that never influence control flow (`connected_time`,
`start_time`, session durations shown in the GUI) are elided; the help-request
timestamp string is kept because it is echoed in notifications.

The length-prefixed frame protocol of `client_with_mediator.send_screenshots`
and `technician_with_mediator._recv_all`, and the single-controller accept
loop of `client_with_mediator.accept_control_connections`, are embedded
further below.
-/

/-- Record stored in `MediatorServer.clients` for one connected client
(`socket` and `connected_time` elided). -/
structure ClientInfo where
  ip : String
  name : String
  help_requested : Bool
  session_id : Option String
deriving DecidableEq

/-- Record stored in `MediatorServer.technicians` for one connected technician. -/
structure TechInfo where
  ip : String
  name : String
  assigned_client : Option String
deriving DecidableEq

/-- Record stored in `MediatorServer.help_requests` (keyed by client id). -/
structure HelpInfo where
  timestamp : String
  status : String
deriving DecidableEq

/-- Record stored in `MediatorServer.active_sessions` (keyed by session id;
`start_time` elided). -/
structure SessionInfo where
  client_id : String
  tech_id : String
deriving DecidableEq

/-- The four registries of `MediatorServer`, as insertion-ordered association
lists mirroring Python dicts. -/
structure ServerState where
  clients : List (String × ClientInfo)
  technicians : List (String × TechInfo)
  help_requests : List (String × HelpInfo)
  active_sessions : List (String × SessionInfo)
deriving DecidableEq

/-- The state right after `MediatorServer.__init__` / `start_server`. -/
def initialState : ServerState := ⟨[], [], [], []⟩

/-- Lookup in a Python-dict association list. -/
def dlookup {β : Type} (k : String) : List (String × β) → Option β
  | [] => none
  | p :: d => if p.1 = k then some p.2 else dlookup k d

/-- Python `d[k] = v`: replace in place when the key exists, else append. -/
def dinsert {β : Type} (k : String) (v : β) (d : List (String × β)) : List (String × β) :=
  if (dlookup k d).isSome then d.map (fun p => if p.1 = k then (k, v) else p) else d ++ [(k, v)]

/-- Python `d[k][field] = ...`: update the value stored at an existing key. -/
def dupdate {β : Type} (k : String) (f : β → β) (d : List (String × β)) : List (String × β) :=
  d.map (fun p => if p.1 = k then (k, f p.2) else p)

/-- Python `del d[k]`. -/
def derase {β : Type} (k : String) (d : List (String × β)) : List (String × β) :=
  d.filter (fun p => p.1 ≠ k)

/-- Destination of one socket send. -/
inductive Dest where
  | toClient (id : String)
  | toTech (id : String)
deriving DecidableEq

/-- The JSON signaling messages the broker emits. -/
inductive Msg where
  | welcomeClient (client_id : String)
  | welcomeTech (tech_id : String) (requests : List (String × String × String × String))
  | helpConfirmed
  | newHelpRequest (client_id name ip timestamp : String)
  | helpCancelled (client_id : String)
  | controlRequest (technician_name technician_ip tech_id : String)
  | controlApproved (client_id client_ip client_name session_id : String)
  | controlDenied (client_id client_name : String)
  | clientUnavailable (client_id : String)
  | clientDisconnected (client_id : String)
  | heartbeat
deriving DecidableEq

/-- One successfully delivered send. -/
abbrev Send := Dest × Msg

/-- One `socket.send` wrapped in try/except whose failure is only logged. -/
def trySend (fails : Dest → Bool) (d : Dest) (m : Msg) : List Send :=
  if fails d then [] else [(d, m)]

/-- Field update `clients[cid]['help_requested'] = b`. -/
def setHelpRequested (b : Bool) (ci : ClientInfo) : ClientInfo :=
  { ci with help_requested := b }

/-- Field update `clients[cid]['session_id'] = v`. -/
def setSessionId (v : Option String) (ci : ClientInfo) : ClientInfo :=
  { ci with session_id := v }

/-- The two consecutive assignments the approved branch performs on the client
record: `session_id = session_id` then `help_requested = False`. -/
def approveClient (sid : String) (ci : ClientInfo) : ClientInfo :=
  { ci with session_id := some sid, help_requested := false }

/-- Field update `technicians[tid]['assigned_client'] = v`. -/
def setAssignedClient (v : Option String) (ti : TechInfo) : TechInfo :=
  { ti with assigned_client := v }

/-- `MediatorServer.disconnect_technician`. -/
def disconnect_technician (tech_id : String) (s : ServerState) : ServerState :=
  match dlookup tech_id s.technicians with
  | none => s
  | some tech_info =>
    let s1 :=
      match tech_info.assigned_client with
      | none => s
      | some assigned_client =>
        if (dlookup assigned_client s.clients).isSome then
          match s.active_sessions.find? (fun (q : String × SessionInfo) => q.2.tech_id == tech_id) with
          | some q =>
            { s with active_sessions := derase q.1 s.active_sessions,
                     clients := dupdate assigned_client (setSessionId none) s.clients }
          | none => s
        else s
    { s1 with technicians := derase tech_id s1.technicians }

/-- One iteration of the `broadcast_to_technicians` loop for the snapshot
entry `p`: skip the excluded technician, disconnect it on a send failure,
otherwise deliver. -/
def broadcast_step (fails : Dest → Bool) (message : Msg) (exclude_tech : Option String)
    (acc : ServerState × List Send) (p : String × TechInfo) : ServerState × List Send :=
  if exclude_tech = some p.1 then acc
  else if fails (Dest.toTech p.1) then (disconnect_technician p.1 acc.1, acc.2)
  else (acc.1, acc.2 ++ [(Dest.toTech p.1, message)])

/-- `MediatorServer.broadcast_to_technicians`: iterates over a snapshot of the
technicians dict; a failed send disconnects that technician. -/
def broadcast_to_technicians (fails : Dest → Bool) (message : Msg)
    (exclude_tech : Option String) (s : ServerState) : ServerState × List Send :=
  s.technicians.foldl (broadcast_step fails message exclude_tech) (s, [])

/-- `MediatorServer.disconnect_client`.  Note the source deletes the session
and only then re-reads `self.active_sessions.get(session_id, {})`, so the
technician-notification branch below can never fire. -/
def disconnect_client (fails : Dest → Bool) (client_id : String) (s : ServerState) :
    ServerState × List Send :=
  match dlookup client_id s.clients with
  | none => (s, [])
  | some client_info =>
    let s1 :=
      match client_info.session_id with
      | none => s
      | some session_id =>
        if (dlookup session_id s.active_sessions).isSome then
          let sa := { s with active_sessions := derase session_id s.active_sessions }
          match dlookup session_id sa.active_sessions with
          | some sess =>
            if (dlookup sess.tech_id sa.technicians).isSome then
              { sa with technicians := dupdate sess.tech_id (setAssignedClient none) sa.technicians }
            else sa
          | none => sa
        else s
    let s2 := { s1 with help_requests := derase client_id s1.help_requests }
    let s3 := { s2 with clients := derase client_id s2.clients }
    broadcast_to_technicians fails (Msg.clientDisconnected client_id) none s3

/-- `MediatorServer.handle_client_connection`: register the client and send the
welcome; a failed welcome send disconnects it again. The id is drawn by
`str(uuid.uuid4())[:8]` in the source and is passed in here. -/
def handle_client_connection (fails : Dest → Bool) (client_id ip name : String)
    (s : ServerState) : ServerState × List Send :=
  let s1 := { s with clients := dinsert client_id ⟨ip, name, false, none⟩ s.clients }
  if fails (Dest.toClient client_id) then
    disconnect_client fails client_id s1
  else
    (s1, [(Dest.toClient client_id, Msg.welcomeClient client_id)])

/-- Pending help requests reported in a technician welcome: clients with
`help_requested` set and no `session_id`, as `(client_id, name, ip, timestamp)`. -/
def help_list (s : ServerState) : List (String × String × String × String) :=
  (s.clients.filter (fun p => p.2.help_requested && p.2.session_id.isNone)).map
    (fun p => (p.1, p.2.name, p.2.ip, ((dlookup p.1 s.help_requests).map (·.timestamp)).getD ""))

/-- `MediatorServer.handle_technician_connection`. -/
def handle_technician_connection (fails : Dest → Bool) (tech_id ip name : String)
    (s : ServerState) : ServerState × List Send :=
  let s1 := { s with technicians := dinsert tech_id ⟨ip, name, none⟩ s.technicians }
  if fails (Dest.toTech tech_id) then
    (disconnect_technician tech_id s1, [])
  else
    (s1, [(Dest.toTech tech_id, Msg.welcomeTech tech_id (help_list s1))])

/-- `MediatorServer.handle_help_request`; `timestamp` is the formatted
`datetime.now()` value the source computes. -/
def handle_help_request (fails : Dest → Bool) (client_id timestamp : String)
    (s : ServerState) : ServerState × List Send :=
  match dlookup client_id s.clients with
  | none => (s, [])
  | some client_info =>
    let s1 := { s with
      clients := dupdate client_id (setHelpRequested true) s.clients,
      help_requests := dinsert client_id ⟨timestamp, "pending"⟩ s.help_requests }
    let notification := Msg.newHelpRequest client_id client_info.name client_info.ip timestamp
    let r := broadcast_to_technicians fails notification none s1
    (r.1, r.2 ++ trySend fails (Dest.toClient client_id) Msg.helpConfirmed)

/-- `MediatorServer.handle_cancel_help`. -/
def handle_cancel_help (fails : Dest → Bool) (client_id : String)
    (s : ServerState) : ServerState × List Send :=
  match dlookup client_id s.clients with
  | none => (s, [])
  | some _ =>
    let s1 := { s with
      clients := dupdate client_id (setHelpRequested false) s.clients,
      help_requests := derase client_id s.help_requests }
    broadcast_to_technicians fails (Msg.helpCancelled client_id) none s1

/-- `MediatorServer.handle_control_request`. -/
def handle_control_request (fails : Dest → Bool) (tech_id client_id : String)
    (s : ServerState) : ServerState × List Send :=
  match dlookup client_id s.clients, dlookup tech_id s.technicians with
  | some _, some tech_info =>
    (s, trySend fails (Dest.toClient client_id)
          (Msg.controlRequest tech_info.name tech_info.ip tech_id))
  | _, _ => (s, [])

/-- `MediatorServer.handle_control_response`; `session_id` is the fresh
`str(uuid.uuid4())[:8]` the source draws inside the approved branch. -/
def handle_control_response (fails : Dest → Bool) (client_id tech_id : String)
    (approved : Bool) (session_id : String) (s : ServerState) : ServerState × List Send :=
  match dlookup tech_id s.technicians, dlookup client_id s.clients with
  | some _, some client_info =>
    if approved then
      let s1 := { s with
        active_sessions := dinsert session_id ⟨client_id, tech_id⟩ s.active_sessions,
        clients := dupdate client_id (approveClient session_id) s.clients }
      let s2 := { s1 with
        technicians := dupdate tech_id (setAssignedClient (some client_id)) s1.technicians }
      let s3 := { s2 with help_requests := derase client_id s2.help_requests }
      let out1 := trySend fails (Dest.toTech tech_id)
        (Msg.controlApproved client_id client_info.ip client_info.name session_id)
      let r := broadcast_to_technicians fails (Msg.clientUnavailable client_id) (some tech_id) s3
      (r.1, out1 ++ r.2)
    else
      (s, trySend fails (Dest.toTech tech_id) (Msg.controlDenied client_id client_info.name))
  | _, _ => (s, [])

/-- `MediatorServer.handle_end_session`; `tech_id` is the technician the
message arrived from, and it is that technician — not the one recorded in the
session — whose `assigned_client` is reset. -/
def handle_end_session (tech_id session_id : String) (s : ServerState) : ServerState :=
  match dlookup session_id s.active_sessions with
  | none => s
  | some session =>
    let s1 := { s with active_sessions := derase session_id s.active_sessions }
    let s2 :=
      if (dlookup session.client_id s1.clients).isSome then
        { s1 with clients := dupdate session.client_id (setSessionId none) s1.clients }
      else s1
    if (dlookup tech_id s2.technicians).isSome then
      { s2 with technicians := dupdate tech_id (setAssignedClient none) s2.technicians }
    else s2

/-- Messages a client connection can deliver to the broker, as dispatched by
`process_client_message`. Server-side nondeterminism (the `datetime.now()`
timestamp, the uuid drawn on approval) is carried as constructor data. -/
inductive ClientMsg where
  | help_request (timestamp : String)
  | cancel_help
  | control_response (tech_id : String) (approved : Bool) (session_id : String)
  | heartbeat_response
  | end_session (session_id : String)
  | unknown
deriving DecidableEq

/-- `MediatorServer.process_client_message`. A client-sent `end_session`
matches no branch and falls through to the unknown-type log, leaving the
state unchanged. -/
def process_client_message (fails : Dest → Bool) (client_id : String) (m : ClientMsg)
    (s : ServerState) : ServerState × List Send :=
  match m with
  | .help_request ts => handle_help_request fails client_id ts s
  | .cancel_help => handle_cancel_help fails client_id s
  | .control_response tech_id approved sid =>
      handle_control_response fails client_id tech_id approved sid s
  | .heartbeat_response => (s, [])
  | .end_session _ => (s, [])
  | .unknown => (s, [])

/-- Messages a technician connection can deliver to the broker. -/
inductive TechMsg where
  | request_control (client_id : String)
  | end_session (session_id : String)
  | heartbeat_response
  | unknown
deriving DecidableEq

/-- `MediatorServer.process_technician_message`. -/
def process_technician_message (fails : Dest → Bool) (tech_id : String) (m : TechMsg)
    (s : ServerState) : ServerState × List Send :=
  match m with
  | .request_control cid => handle_control_request fails tech_id cid s
  | .end_session sid => (handle_end_session tech_id sid s, [])
  | .heartbeat_response => (s, [])
  | .unknown => (s, [])

/-- One client iteration of `MediatorServer.heartbeat_checker`: a failed (or
impossible, key already gone) heartbeat send triggers `disconnect_client`. -/
def heartbeat_client_step (fails : Dest → Bool) (acc : ServerState × List Send)
    (client_id : String) : ServerState × List Send :=
  if (dlookup client_id acc.1.clients).isSome && !fails (Dest.toClient client_id) then
    (acc.1, acc.2 ++ [(Dest.toClient client_id, Msg.heartbeat)])
  else
    let r := disconnect_client fails client_id acc.1
    (r.1, acc.2 ++ r.2)

/-- One technician iteration of `MediatorServer.heartbeat_checker`. -/
def heartbeat_tech_step (fails : Dest → Bool) (acc : ServerState × List Send)
    (tech_id : String) : ServerState × List Send :=
  if (dlookup tech_id acc.1.technicians).isSome && !fails (Dest.toTech tech_id) then
    (acc.1, acc.2 ++ [(Dest.toTech tech_id, Msg.heartbeat)])
  else
    (disconnect_technician tech_id acc.1, acc.2)

/-- One pass of the `MediatorServer.heartbeat_checker` loop body: ping every
client, then every technician, each over a snapshot of the respective keys. -/
def heartbeat_checker (fails : Dest → Bool) (s : ServerState) : ServerState × List Send :=
  let acc1 := (s.clients.map Prod.fst).foldl (heartbeat_client_step fails) (s, [])
  (acc1.1.technicians.map Prod.fst).foldl (heartbeat_tech_step fails) acc1

/-!
The direct control-channel framing. `send_screenshots` emits
`len(data).to_bytes(4, byteorder='big')` followed by the pickled payload;
`_recv_all(n)` loops `recv(n - len(data))` until `n` bytes are collected,
returning `None` when a recv yields no data. Bytes are `Nat`s below 256; the
transport adversary is a list of positive chunk sizes, one per `recv` call
(`recv(k)` may return any non-empty prefix of the pending bytes of length at
most `k`).
-/

/-- Python `n.to_bytes(4, byteorder='big')` (defined for `n < 2^32`). -/
def toBytesBE4 (n : Nat) : List Nat :=
  [n / 2 ^ 24 % 256, n / 2 ^ 16 % 256, n / 2 ^ 8 % 256, n % 256]

/-- Python `int.from_bytes(bs, byteorder='big')`. -/
def fromBytesBE (bs : List Nat) : Nat :=
  bs.foldl (fun acc b => acc * 256 + b) 0

/-- The byte stream `send_screenshots` writes for one frame:
`sendall(size_bytes)` then `sendall(data)`. -/
def sendFrame (payload : List Nat) : List Nat :=
  toBytesBE4 payload.length ++ payload

/-- The `while len(data) < n` loop of `_recv_all`, one delivery per `recv`
call: the transport hands over `min d (n - len acc)` pending bytes. Returns
the collected bytes, the rest of the stream and the unused deliveries, or
`none` when a `recv` comes back empty or the budget of calls runs out. -/
def recvLoop (n : Nat) : List Nat → List Nat → List Nat →
    Option (List Nat × List Nat × List Nat)
  | [], acc, stream =>
    if n ≤ acc.length then some (acc, stream, []) else none
  | d :: ds, acc, stream =>
    if n ≤ acc.length then some (acc, stream, d :: ds)
    else
      let j := min (min d (n - acc.length)) stream.length
      if j = 0 then none
      else recvLoop n ds (acc ++ stream.take j) (stream.drop j)

/-- `_recv_all(n)` against a chunked transport. -/
def recv_all (ds : List Nat) (n : Nat) (stream : List Nat) :
    Option (List Nat × List Nat × List Nat) :=
  recvLoop n ds [] stream

/-- One iteration of `_receive_screenshots`: `_recv_all(4)`, decode the
big-endian size, `_recv_all(size)`; yields the payload and leftover stream,
or `none` when either read fails (`if not size_bytes: break`). -/
def receiveFrame (ds : List Nat) (stream : List Nat) : Option (List Nat × List Nat) :=
  match recv_all ds 4 stream with
  | none => none
  | some (size_bytes, rest, ds') =>
    match recv_all ds' (fromBytesBE size_bytes) rest with
    | none => none
    | some (data, rest', _) => some (data, rest')

/-!
The single-controller accept loop of
`RemoteControlClientWithMediator.accept_control_connections`: while
`self.technician_socket` is set, a newly accepted connection is closed at
once and never served. `openConns` is a ghost list of sockets accepted and
not yet closed, to express that at most one control socket is ever held.
-/

/-- Client-agent control-server state: the `technician_socket` field plus the
ghost list of currently open accepted sockets. -/
structure ControlServerState where
  technician_socket : Option Nat
  openConns : List Nat
deriving DecidableEq

/-- State before any control connection arrives. -/
def controlServerInit : ControlServerState := ⟨none, []⟩

/-- Events the accept loop reacts to: a new incoming connection (identified by
a numeric handle), or `disconnect_technician` on the client agent clearing the
current socket. -/
inductive ControlEvent where
  | incoming (c : Nat)
  | dropTechnician
deriving DecidableEq

/-- Outcome of one accepted connection attempt. -/
inductive ControlOutcome where
  | served (c : Nat)
  | rejected (c : Nat)
deriving DecidableEq

/-- One turn of `accept_control_connections` (for `incoming`), or the client
agent's `disconnect_technician` (for `dropTechnician`). -/
def control_step (s : ControlServerState) : ControlEvent → ControlServerState × List ControlOutcome
  | .incoming c =>
    match s.technician_socket with
    | some _ => (s, [.rejected c])
    | none => (⟨some c, s.openConns ++ [c]⟩, [.served c])
  | .dropTechnician =>
    match s.technician_socket with
    | some t => (⟨none, s.openConns.filter (fun x => x ≠ t)⟩, [])
    | none => (s, [])

/-- The accept loop run over a sequence of events. -/
def control_run (evs : List ControlEvent) (s : ControlServerState) :
    ControlServerState × List ControlOutcome :=
  evs.foldl (fun acc ev => ((control_step acc.1 ev).1, acc.2 ++ (control_step acc.1 ev).2)) (s, [])

/-!
Reachability of broker states. `BrokerReachable` closes `initialState` under
the operations named in the spec — registration, help request, cancel,
control request, control response, end session, disconnect — with the ids
drawn by `uuid.uuid4()` required fresh, everything else unconstrained.
`ReachableGuardedHelp` additionally requires what the client agent's UI
enforces (a help request is only sent when no session is active), and
`ReachableGuardedSessions` requires the approval/end-session discipline of
well-behaved participants. They serve the amended forms of C1 and C2.
-/

inductive BrokerReachable : ServerState → Prop where
  | init : BrokerReachable initialState
  | registerClient (s : ServerState) (fails : Dest → Bool) (cid ip name : String) :
      BrokerReachable s → dlookup cid s.clients = none →
      BrokerReachable (handle_client_connection fails cid ip name s).1
  | registerTech (s : ServerState) (fails : Dest → Bool) (tid ip name : String) :
      BrokerReachable s → dlookup tid s.technicians = none →
      BrokerReachable (handle_technician_connection fails tid ip name s).1
  | helpRequest (s : ServerState) (fails : Dest → Bool) (cid ts : String) :
      BrokerReachable s →
      BrokerReachable (handle_help_request fails cid ts s).1
  | cancelHelp (s : ServerState) (fails : Dest → Bool) (cid : String) :
      BrokerReachable s →
      BrokerReachable (handle_cancel_help fails cid s).1
  | controlRequest (s : ServerState) (fails : Dest → Bool) (tid cid : String) :
      BrokerReachable s →
      BrokerReachable (handle_control_request fails tid cid s).1
  | controlResponse (s : ServerState) (fails : Dest → Bool) (cid tid : String)
      (approved : Bool) (sid : String) :
      BrokerReachable s → (approved = true → dlookup sid s.active_sessions = none) →
      BrokerReachable (handle_control_response fails cid tid approved sid s).1
  | endSession (s : ServerState) (tid sid : String) :
      BrokerReachable s →
      BrokerReachable (handle_end_session tid sid s)
  | disconnectClient (s : ServerState) (fails : Dest → Bool) (cid : String) :
      BrokerReachable s →
      BrokerReachable (disconnect_client fails cid s).1
  | disconnectTech (s : ServerState) (tid : String) :
      BrokerReachable s →
      BrokerReachable (disconnect_technician tid s)

inductive ReachableGuardedHelp : ServerState → Prop where
  | init : ReachableGuardedHelp initialState
  | registerClient (s : ServerState) (fails : Dest → Bool) (cid ip name : String) :
      ReachableGuardedHelp s → dlookup cid s.clients = none →
      ReachableGuardedHelp (handle_client_connection fails cid ip name s).1
  | registerTech (s : ServerState) (fails : Dest → Bool) (tid ip name : String) :
      ReachableGuardedHelp s → dlookup tid s.technicians = none →
      ReachableGuardedHelp (handle_technician_connection fails tid ip name s).1
  | helpRequest (s : ServerState) (fails : Dest → Bool) (cid ts : String) :
      ReachableGuardedHelp s →
      (∀ ci, dlookup cid s.clients = some ci → ci.session_id = none) →
      ReachableGuardedHelp (handle_help_request fails cid ts s).1
  | cancelHelp (s : ServerState) (fails : Dest → Bool) (cid : String) :
      ReachableGuardedHelp s →
      ReachableGuardedHelp (handle_cancel_help fails cid s).1
  | controlRequest (s : ServerState) (fails : Dest → Bool) (tid cid : String) :
      ReachableGuardedHelp s →
      ReachableGuardedHelp (handle_control_request fails tid cid s).1
  | controlResponse (s : ServerState) (fails : Dest → Bool) (cid tid : String)
      (approved : Bool) (sid : String) :
      ReachableGuardedHelp s → (approved = true → dlookup sid s.active_sessions = none) →
      ReachableGuardedHelp (handle_control_response fails cid tid approved sid s).1
  | endSession (s : ServerState) (tid sid : String) :
      ReachableGuardedHelp s →
      ReachableGuardedHelp (handle_end_session tid sid s)
  | disconnectClient (s : ServerState) (fails : Dest → Bool) (cid : String) :
      ReachableGuardedHelp s →
      ReachableGuardedHelp (disconnect_client fails cid s).1
  | disconnectTech (s : ServerState) (tid : String) :
      ReachableGuardedHelp s →
      ReachableGuardedHelp (disconnect_technician tid s)

inductive ReachableGuardedSessions : ServerState → Prop where
  | init : ReachableGuardedSessions initialState
  | registerClient (s : ServerState) (fails : Dest → Bool) (cid ip name : String) :
      ReachableGuardedSessions s → dlookup cid s.clients = none →
      ReachableGuardedSessions (handle_client_connection fails cid ip name s).1
  | registerTech (s : ServerState) (fails : Dest → Bool) (tid ip name : String) :
      ReachableGuardedSessions s → dlookup tid s.technicians = none →
      ReachableGuardedSessions (handle_technician_connection fails tid ip name s).1
  | helpRequest (s : ServerState) (fails : Dest → Bool) (cid ts : String) :
      ReachableGuardedSessions s →
      ReachableGuardedSessions (handle_help_request fails cid ts s).1
  | cancelHelp (s : ServerState) (fails : Dest → Bool) (cid : String) :
      ReachableGuardedSessions s →
      ReachableGuardedSessions (handle_cancel_help fails cid s).1
  | controlRequest (s : ServerState) (fails : Dest → Bool) (tid cid : String) :
      ReachableGuardedSessions s →
      ReachableGuardedSessions (handle_control_request fails tid cid s).1
  | controlResponse (s : ServerState) (fails : Dest → Bool) (cid tid : String)
      (approved : Bool) (sid : String) :
      ReachableGuardedSessions s →
      (approved = true → dlookup sid s.active_sessions = none) →
      (approved = true → ∀ ci, dlookup cid s.clients = some ci → ci.session_id = none) →
      (approved = true → ∀ ti, dlookup tid s.technicians = some ti → ti.assigned_client = none) →
      ReachableGuardedSessions (handle_control_response fails cid tid approved sid s).1
  | endSession (s : ServerState) (tid sid : String) :
      ReachableGuardedSessions s →
      (∀ sess, dlookup sid s.active_sessions = some sess → sess.tech_id = tid) →
      ReachableGuardedSessions (handle_end_session tid sid s)
  | disconnectClient (s : ServerState) (fails : Dest → Bool) (cid : String) :
      ReachableGuardedSessions s →
      ReachableGuardedSessions (disconnect_client fails cid s).1
  | disconnectTech (s : ServerState) (tid : String) :
      ReachableGuardedSessions s →
      ReachableGuardedSessions (disconnect_technician tid s)

/-- The spec's §3 mutual-exclusion condition on one client record. -/
def ClientOk (ci : ClientInfo) : Prop :=
  ci.help_requested = true → ci.session_id = none

/-- Every record of a clients dict satisfies `ClientOk`. -/
def ClientsOk (d : List (String × ClientInfo)) : Prop :=
  ∀ cid ci, dlookup cid d = some ci → ClientOk ci

/-- The spec's §3 invariant "helpRequested and sessionId are mutually
exclusive" over a broker state. -/
def HelpSessionExclusive (s : ServerState) : Prop :=
  ClientsOk s.clients

/-- Cross-reference consistency of the active-sessions map: session ids are
unique, every session's client record points back at it, and every session's
technician is assigned to its client. -/
def SessionsConsistent (s : ServerState) : Prop :=
  (s.active_sessions.map Prod.fst).Nodup ∧
  ∀ sid sess, dlookup sid s.active_sessions = some sess →
    (∃ ci, dlookup sess.client_id s.clients = some ci ∧ ci.session_id = some sid) ∧
    (∃ ti, dlookup sess.tech_id s.technicians = some ti ∧
      ti.assigned_client = some sess.client_id)

/-- A transport where every send succeeds. -/
def nofail : Dest → Bool := fun _ => false

/-- Demo run: client c1 registers. -/
def demoClient : ServerState :=
  (handle_client_connection nofail "c1" "10.0.0.1" "alice" initialState).1

/-- Demo run: technician t1 registers. -/
def demoTech : ServerState :=
  (handle_technician_connection nofail "t1" "10.0.0.2" "bob" demoClient).1

/-- Demo run: c1 submits a help request. -/
def demoHelp : ServerState :=
  (handle_help_request nofail "c1" "ts0" demoTech).1

/-- Demo run: c1 approves control by t1; session s1 is created. -/
def demoSession : ServerState :=
  (handle_control_response nofail "c1" "t1" true "s1" demoHelp).1

/-- Demo run continued: c1, while in session s1, submits another help request
(the broker has no guard against this). -/
def demoHelpInSession : ServerState :=
  (handle_help_request nofail "c1" "ts1" demoSession).1

/-- Demo run continued: a second technician t2 registers while s1 is active. -/
def demoTech2 : ServerState :=
  (handle_technician_connection nofail "t2" "10.0.0.3" "carol" demoSession).1

/-- Demo run continued: c1, still in session s1, also approves control by t2;
a second session s2 for the same client is created. -/
def demoDupSession : ServerState :=
  (handle_control_response nofail "c1" "t2" true "s2" demoTech2).1

/-!
Association-list lemmas for the Python-dict helpers.
-/

theorem dlookup_cons {β : Type} (k : String) (p : String × β) (d : List (String × β)) :
    dlookup k (p :: d) = if p.1 = k then some p.2 else dlookup k d := rfl

theorem derase_cons {β : Type} (k : String) (p : String × β) (d : List (String × β)) :
    derase k (p :: d) = if p.1 = k then derase k d else p :: derase k d := by
  rw [derase, List.filter_cons]
  by_cases hp : p.1 = k <;> simp [hp, derase]

theorem dupdate_cons {β : Type} (k : String) (f : β → β) (p : String × β)
    (d : List (String × β)) :
    dupdate k f (p :: d) = (if p.1 = k then (k, f p.2) else p) :: dupdate k f d := rfl

theorem dlookup_derase_self {β : Type} (k : String) (d : List (String × β)) :
    dlookup k (derase k d) = none := by
  induction d with
  | nil => rfl
  | cons p d ih =>
    rw [derase_cons]
    by_cases hp : p.1 = k
    · rw [if_pos hp]
      exact ih
    · rw [if_neg hp, dlookup_cons, if_neg hp]
      exact ih

theorem dlookup_derase_ne {β : Type} {k k' : String} (d : List (String × β)) (h : k' ≠ k) :
    dlookup k' (derase k d) = dlookup k' d := by
  induction d with
  | nil => rfl
  | cons p d ih =>
    rw [derase_cons]
    by_cases hp : p.1 = k
    · have hne : ¬ p.1 = k' := by rw [hp]; exact fun e => h e.symm
      rw [if_pos hp, dlookup_cons, if_neg hne]
      exact ih
    · rw [if_neg hp, dlookup_cons, dlookup_cons]
      by_cases hp' : p.1 = k'
      · rw [if_pos hp', if_pos hp']
      · rw [if_neg hp', if_neg hp']
        exact ih

theorem dlookup_dupdate_self {β : Type} (k : String) (f : β → β) (d : List (String × β)) :
    dlookup k (dupdate k f d) = (dlookup k d).map f := by
  induction d with
  | nil => rfl
  | cons p d ih =>
    rw [dupdate_cons]
    by_cases hp : p.1 = k
    · rw [if_pos hp, dlookup_cons, dlookup_cons, if_pos hp]
      simp
    · rw [if_neg hp, dlookup_cons, dlookup_cons, if_neg hp, if_neg hp]
      exact ih

theorem dlookup_dupdate_ne {β : Type} {k k' : String} (f : β → β) (d : List (String × β))
    (h : k' ≠ k) : dlookup k' (dupdate k f d) = dlookup k' d := by
  induction d with
  | nil => rfl
  | cons p d ih =>
    rw [dupdate_cons]
    by_cases hp : p.1 = k
    · have hne : ¬ (k, f p.2).1 = k' := fun e => h (e.symm)
      have hne' : ¬ p.1 = k' := by rw [hp]; exact fun e => h e.symm
      rw [if_pos hp, dlookup_cons, if_neg hne, dlookup_cons, if_neg hne']
      exact ih
    · rw [if_neg hp, dlookup_cons, dlookup_cons]
      by_cases hp' : p.1 = k'
      · rw [if_pos hp', if_pos hp']
      · rw [if_neg hp', if_neg hp']
        exact ih

theorem dlookup_append_left {β : Type} {k : String} {d : List (String × β)}
    (e : List (String × β)) {v : β} (h : dlookup k d = some v) :
    dlookup k (d ++ e) = some v := by
  induction d with
  | nil => simp [dlookup] at h
  | cons p d ih =>
    rw [dlookup_cons] at h
    rw [List.cons_append, dlookup_cons]
    by_cases hp : p.1 = k
    · rw [if_pos hp] at h ⊢
      exact h
    · rw [if_neg hp] at h ⊢
      exact ih h

theorem dlookup_append_right {β : Type} {k : String} {d : List (String × β)}
    (e : List (String × β)) (h : dlookup k d = none) :
    dlookup k (d ++ e) = dlookup k e := by
  induction d with
  | nil => rfl
  | cons p d ih =>
    rw [dlookup_cons] at h
    rw [List.cons_append, dlookup_cons]
    by_cases hp : p.1 = k
    · rw [if_pos hp] at h
      exact absurd h (by simp)
    · rw [if_neg hp] at h ⊢
      exact ih h

theorem dlookup_replace_self {β : Type} (k : String) (v : β) (d : List (String × β))
    (h : (dlookup k d).isSome) :
    dlookup k (d.map (fun p => if p.1 = k then (k, v) else p)) = some v := by
  induction d with
  | nil => simp [dlookup] at h
  | cons p d ih =>
    rw [List.map_cons]
    by_cases hp : p.1 = k
    · rw [if_pos hp, dlookup_cons]
      simp
    · rw [dlookup_cons, if_neg hp] at h
      rw [if_neg hp, dlookup_cons, if_neg hp]
      exact ih h

theorem dlookup_replace_ne {β : Type} {k k' : String} (v : β) (d : List (String × β))
    (h : k' ≠ k) :
    dlookup k' (d.map (fun p => if p.1 = k then (k, v) else p)) = dlookup k' d := by
  induction d with
  | nil => rfl
  | cons p d ih =>
    rw [List.map_cons]
    by_cases hp : p.1 = k
    · have hne : ¬ (k, v).1 = k' := fun e => h e.symm
      have hne' : ¬ p.1 = k' := by rw [hp]; exact fun e => h e.symm
      rw [if_pos hp, dlookup_cons, if_neg hne, dlookup_cons, if_neg hne']
      exact ih
    · rw [if_neg hp, dlookup_cons, dlookup_cons]
      by_cases hp' : p.1 = k'
      · rw [if_pos hp', if_pos hp']
      · rw [if_neg hp', if_neg hp']
        exact ih

theorem dlookup_dinsert_self {β : Type} (k : String) (v : β) (d : List (String × β)) :
    dlookup k (dinsert k v d) = some v := by
  rw [dinsert]
  by_cases h : (dlookup k d).isSome
  · rw [if_pos h]
    exact dlookup_replace_self k v d h
  · rw [if_neg h]
    have hnone : dlookup k d = none := by
      cases hd : dlookup k d with
      | none => rfl
      | some w => rw [hd] at h; simp at h
    rw [dlookup_append_right _ hnone, dlookup_cons]
    simp

theorem dlookup_dinsert_ne {β : Type} {k k' : String} (v : β) (d : List (String × β))
    (h : k' ≠ k) : dlookup k' (dinsert k v d) = dlookup k' d := by
  rw [dinsert]
  by_cases hs : (dlookup k d).isSome
  · rw [if_pos hs]
    exact dlookup_replace_ne v d h
  · rw [if_neg hs]
    cases hd : dlookup k' d with
    | none =>
      rw [dlookup_append_right _ hd, dlookup_cons, if_neg (fun e => h e.symm)]
      rfl
    | some w => exact dlookup_append_left _ hd

theorem mem_of_dlookup {β : Type} {k : String} {v : β} {d : List (String × β)}
    (h : dlookup k d = some v) : (k, v) ∈ d := by
  induction d with
  | nil => simp [dlookup] at h
  | cons p d ih =>
    rw [dlookup_cons] at h
    by_cases hp : p.1 = k
    · rw [if_pos hp] at h
      injection h with h2
      have hpv : p = (k, v) := Prod.ext_iff.mpr ⟨hp, h2⟩
      exact hpv ▸ List.mem_cons_self p d
    · rw [if_neg hp] at h
      exact List.mem_cons_of_mem _ (ih h)

theorem dlookup_of_mem_nodup {β : Type} {k : String} {v : β} {d : List (String × β)}
    (hn : (d.map Prod.fst).Nodup) (h : (k, v) ∈ d) : dlookup k d = some v := by
  induction d with
  | nil => simp at h
  | cons p d ih =>
    simp only [List.map_cons, List.nodup_cons] at hn
    rcases List.mem_cons.mp h with h | h
    · rw [← h, dlookup_cons, if_pos rfl]
    · have hk : p.1 ≠ k := by
        intro e
        exact hn.1 (e ▸ (List.mem_map.mpr ⟨(k, v), h, rfl⟩))
      rw [dlookup_cons, if_neg hk]
      exact ih hn.2 h

theorem dlookup_eq_none_of_not_mem {β : Type} {k : String} {d : List (String × β)}
    (h : k ∉ d.map Prod.fst) : dlookup k d = none := by
  induction d with
  | nil => rfl
  | cons p d ih =>
    simp only [List.map_cons, List.mem_cons] at h
    push_neg at h
    rw [dlookup_cons, if_neg (fun e => h.1 e.symm)]
    exact ih h.2

theorem mem_keys_of_dlookup {β : Type} {k : String} {d : List (String × β)}
    (h : (dlookup k d).isSome) : k ∈ d.map Prod.fst := by
  by_contra hc
  rw [dlookup_eq_none_of_not_mem hc] at h
  simp at h

theorem keys_dupdate {β : Type} (k : String) (f : β → β) (d : List (String × β)) :
    (dupdate k f d).map Prod.fst = d.map Prod.fst := by
  induction d with
  | nil => rfl
  | cons p d ih =>
    rw [dupdate_cons, List.map_cons, List.map_cons, ih]
    by_cases hp : p.1 = k
    · rw [if_pos hp, hp]
    · rw [if_neg hp]

theorem keys_derase {β : Type} (k : String) (d : List (String × β)) :
    (derase k d).map Prod.fst = (d.map Prod.fst).filter (fun x => x ≠ k) := by
  induction d with
  | nil => rfl
  | cons p d ih =>
    rw [derase_cons, List.map_cons, List.filter_cons]
    by_cases hp : p.1 = k
    · simp only [hp, if_pos rfl]
      simpa [hp] using ih
    · simp only [if_neg hp, List.map_cons, ih]
      simp [hp]

theorem nodup_keys_derase {β : Type} (k : String) {d : List (String × β)}
    (h : (d.map Prod.fst).Nodup) : ((derase k d).map Prod.fst).Nodup := by
  rw [keys_derase]
  exact h.filter _

theorem nodup_keys_dupdate {β : Type} (k : String) (f : β → β) {d : List (String × β)}
    (h : (d.map Prod.fst).Nodup) : ((dupdate k f d).map Prod.fst).Nodup := by
  rw [keys_dupdate]
  exact h

theorem keys_dinsert_fresh {β : Type} {k : String} (v : β) {d : List (String × β)}
    (hf : dlookup k d = none) :
    (dinsert k v d).map Prod.fst = d.map Prod.fst ++ [k] := by
  rw [dinsert, if_neg (by rw [hf]; simp)]
  simp

theorem dlookup_isSome_of_mem_keys {β : Type} {k : String} {d : List (String × β)}
    (h : k ∈ d.map Prod.fst) : (dlookup k d).isSome := by
  induction d with
  | nil => simp at h
  | cons p d ih =>
    rw [dlookup_cons]
    by_cases hp : p.1 = k
    · rw [if_pos hp]
      rfl
    · rw [if_neg hp]
      simp only [List.map_cons, List.mem_cons] at h
      rcases h with h | h
      · exact absurd h.symm hp
      · exact ih h

theorem nodup_keys_dinsert_fresh {β : Type} {k : String} (v : β) {d : List (String × β)}
    (hf : dlookup k d = none) (h : (d.map Prod.fst).Nodup) :
    ((dinsert k v d).map Prod.fst).Nodup := by
  rw [keys_dinsert_fresh v hf, List.nodup_append]
  refine ⟨h, List.nodup_singleton k, ?_⟩
  intro a ha hb
  simp only [List.mem_singleton] at hb
  subst hb
  have := dlookup_isSome_of_mem_keys ha
  rw [hf] at this
  exact absurd this (by simp)

/-!
Frame-protocol lemmas (claim C7).
-/

theorem recvLoop_spec (n : Nat) : ∀ (ds acc stream : List Nat),
    (∀ d ∈ ds, 1 ≤ d) → n ≤ acc.length + stream.length → n ≤ acc.length + ds.length →
    ∃ ds', recvLoop n ds acc stream =
        some (acc ++ stream.take (n - acc.length), stream.drop (n - acc.length), ds') ∧
      ds.length ≤ ds'.length + (n - acc.length) ∧ (∀ d ∈ ds', 1 ≤ d) := by
  intro ds
  induction ds with
  | nil =>
    intro acc stream _ _ hbudget
    simp only [List.length_nil, Nat.add_zero] at hbudget
    refine ⟨[], ?_, by simp, by simp⟩
    rw [recvLoop, if_pos hbudget, Nat.sub_eq_zero_of_le hbudget]
    simp
  | cons d ds ih =>
    intro acc stream hpos hstream hbudget
    by_cases hacc : n ≤ acc.length
    · refine ⟨d :: ds, ?_, by simp, hpos⟩
      rw [recvLoop, if_pos hacc, Nat.sub_eq_zero_of_le hacc]
      simp
    · have hd1 : 1 ≤ d := hpos d (List.mem_cons_self d ds)
      have hrem : 1 ≤ n - acc.length := by omega
      have hstr : n - acc.length ≤ stream.length := by omega
      set j := min (min d (n - acc.length)) stream.length with hj
      have hj1 : 1 ≤ j := by omega
      have hjstream : j ≤ stream.length := by omega
      have hjrem : j ≤ n - acc.length := by omega
      have hlen2 : (acc ++ stream.take j).length = acc.length + j := by
        simp [List.length_take]
        omega
      obtain ⟨ds', heq, hlen, hpos'⟩ := ih (acc ++ stream.take j) (stream.drop j)
        (fun x hx => hpos x (List.mem_cons_of_mem d hx))
        (by simp [hlen2, List.length_drop]; omega)
        (by simp only [hlen2]; simp only [List.length_cons] at hbudget; omega)
      refine ⟨ds', ?_, ?_, hpos'⟩
      · rw [recvLoop, if_neg hacc]
        simp only [← hj]
        rw [if_neg (by omega), heq, hlen2]
        have e1 : n - (acc.length + j) = n - acc.length - j := by omega
        have e2 : acc ++ stream.take j ++ (stream.drop j).take (n - acc.length - j) =
            acc ++ stream.take (n - acc.length) := by
          rw [List.append_assoc, ← List.take_add]
          congr 2
          omega
        have e3 : (stream.drop j).drop (n - acc.length - j) = stream.drop (n - acc.length) := by
          rw [List.drop_drop]
          congr 1
          omega
        rw [e1, e2, e3]
      · simp only [List.length_cons]
        rw [hlen2] at hlen
        omega

theorem toBytesBE4_length (n : Nat) : (toBytesBE4 n).length = 4 := rfl

theorem fromBytesBE_toBytesBE4 {n : Nat} (h : n < 2 ^ 32) :
    fromBytesBE (toBytesBE4 n) = n := by
  simp only [toBytesBE4, fromBytesBE, List.foldl_cons, List.foldl_nil]
  omega

/-!
Preservation of the help/session mutual-exclusion invariant (claim C1).
-/

theorem clientOk_setSessionId_none (ci : ClientInfo) : ClientOk (setSessionId none ci) :=
  fun _ => rfl

theorem clientOk_setHelpRequested_false (ci : ClientInfo) :
    ClientOk (setHelpRequested false ci) := by
  intro h
  simp [setHelpRequested] at h

theorem clientOk_approveClient (sid : String) (ci : ClientInfo) :
    ClientOk (approveClient sid ci) := by
  intro h
  simp [approveClient] at h

theorem clientOk_setHelpRequested_true {ci : ClientInfo} (h : ci.session_id = none) :
    ClientOk (setHelpRequested true ci) :=
  fun _ => h

theorem clientOk_fresh (ip name : String) : ClientOk ⟨ip, name, false, none⟩ :=
  fun _ => rfl

theorem clientsOk_dupdate {d : List (String × ClientInfo)} {k : String}
    {f : ClientInfo → ClientInfo} (h : ClientsOk d)
    (hf : ∀ ci, dlookup k d = some ci → ClientOk (f ci)) :
    ClientsOk (dupdate k f d) := by
  intro cid ci hlk
  by_cases e : cid = k
  · subst e
    rw [dlookup_dupdate_self] at hlk
    cases hd : dlookup cid d with
    | none => rw [hd] at hlk; simp at hlk
    | some w =>
      rw [hd] at hlk
      simp only [Option.map_some'] at hlk
      injection hlk with hlk
      exact hlk ▸ hf w hd
  · rw [dlookup_dupdate_ne _ _ e] at hlk
    exact h _ _ hlk

theorem clientsOk_derase {d : List (String × ClientInfo)} (k : String) (h : ClientsOk d) :
    ClientsOk (derase k d) := by
  intro cid ci hlk
  by_cases e : cid = k
  · subst e
    rw [dlookup_derase_self] at hlk
    cases hlk
  · rw [dlookup_derase_ne _ e] at hlk
    exact h _ _ hlk

theorem clientsOk_dinsert {d : List (String × ClientInfo)} {k : String} {v : ClientInfo}
    (h : ClientsOk d) (hv : ClientOk v) : ClientsOk (dinsert k v d) := by
  intro cid ci hlk
  by_cases e : cid = k
  · subst e
    rw [dlookup_dinsert_self] at hlk
    injection hlk with hlk
    exact hlk ▸ hv
  · rw [dlookup_dinsert_ne _ _ e] at hlk
    exact h _ _ hlk

theorem helpEx_disconnect_technician (tid : String) {s : ServerState}
    (h : HelpSessionExclusive s) : HelpSessionExclusive (disconnect_technician tid s) := by
  unfold disconnect_technician
  cases hT : dlookup tid s.technicians with
  | none => exact h
  | some ti =>
    dsimp only
    show ClientsOk _
    cases hA : ti.assigned_client with
    | none => exact h
    | some ac =>
      dsimp only
      by_cases hc : (dlookup ac s.clients).isSome = true
      · rw [if_pos hc]
        cases hF : s.active_sessions.find?
            (fun (q : String × SessionInfo) => q.2.tech_id == tid) with
        | none => exact h
        | some q =>
          exact clientsOk_dupdate h (fun ci _ => clientOk_setSessionId_none ci)
      · rw [if_neg hc]
        exact h

theorem foldl_broadcast_preserves (P : ServerState → Prop)
    (hP : ∀ tid s, P s → P (disconnect_technician tid s))
    (fails : Dest → Bool) (m : Msg) (excl : Option String) :
    ∀ (l : List (String × TechInfo)) (acc : ServerState × List Send), P acc.1 →
      P (l.foldl (broadcast_step fails m excl) acc).1 := by
  intro l
  induction l with
  | nil =>
    intro acc hacc
    exact hacc
  | cons p l ih =>
    intro acc hacc
    rw [List.foldl_cons]
    apply ih
    unfold broadcast_step
    by_cases h1 : excl = some p.1
    · rw [if_pos h1]
      exact hacc
    · rw [if_neg h1]
      by_cases h2 : fails (Dest.toTech p.1) = true
      · rw [if_pos h2]
        exact hP _ _ hacc
      · rw [if_neg h2]
        exact hacc

theorem broadcast_preserves (P : ServerState → Prop)
    (hP : ∀ tid s, P s → P (disconnect_technician tid s))
    (fails : Dest → Bool) (m : Msg) (excl : Option String) {s : ServerState} (h : P s) :
    P (broadcast_to_technicians fails m excl s).1 :=
  foldl_broadcast_preserves P hP fails m excl s.technicians (s, []) h

theorem helpEx_disconnect_client (fails : Dest → Bool) (cid : String) {s : ServerState}
    (h : HelpSessionExclusive s) : HelpSessionExclusive (disconnect_client fails cid s).1 := by
  unfold disconnect_client
  cases hC : dlookup cid s.clients with
  | none => exact h
  | some ci =>
    dsimp only
    apply broadcast_preserves HelpSessionExclusive (fun tid s => helpEx_disconnect_technician tid)
    show ClientsOk (derase cid _)
    apply clientsOk_derase
    cases hS : ci.session_id with
    | none => exact h
    | some sid =>
      dsimp only
      by_cases ha : (dlookup sid s.active_sessions).isSome = true
      · rw [if_pos ha]
        rw [dlookup_derase_self]
        exact h
      · rw [if_neg ha]
        exact h

theorem helpEx_handle_client_connection (fails : Dest → Bool) (cid ip name : String)
    {s : ServerState} (h : HelpSessionExclusive s) :
    HelpSessionExclusive (handle_client_connection fails cid ip name s).1 := by
  unfold handle_client_connection
  dsimp only
  have h1 : ClientsOk (dinsert cid ⟨ip, name, false, none⟩ s.clients) :=
    clientsOk_dinsert h (clientOk_fresh ip name)
  by_cases hf : fails (Dest.toClient cid) = true
  · rw [if_pos hf]
    exact helpEx_disconnect_client fails cid h1
  · rw [if_neg hf]
    exact h1

theorem helpEx_handle_technician_connection (fails : Dest → Bool) (tid ip name : String)
    {s : ServerState} (h : HelpSessionExclusive s) :
    HelpSessionExclusive (handle_technician_connection fails tid ip name s).1 := by
  unfold handle_technician_connection
  dsimp only
  by_cases hf : fails (Dest.toTech tid) = true
  · rw [if_pos hf]
    exact helpEx_disconnect_technician tid h
  · rw [if_neg hf]
    exact h

theorem helpEx_handle_help_request (fails : Dest → Bool) (cid ts : String) {s : ServerState}
    (h : HelpSessionExclusive s)
    (hg : ∀ ci, dlookup cid s.clients = some ci → ci.session_id = none) :
    HelpSessionExclusive (handle_help_request fails cid ts s).1 := by
  unfold handle_help_request
  cases hC : dlookup cid s.clients with
  | none => exact h
  | some ci =>
    dsimp only
    apply broadcast_preserves HelpSessionExclusive (fun tid s => helpEx_disconnect_technician tid)
    exact clientsOk_dupdate h (fun ci' hci' => clientOk_setHelpRequested_true (hg ci' hci'))

theorem helpEx_handle_cancel_help (fails : Dest → Bool) (cid : String) {s : ServerState}
    (h : HelpSessionExclusive s) :
    HelpSessionExclusive (handle_cancel_help fails cid s).1 := by
  unfold handle_cancel_help
  cases hC : dlookup cid s.clients with
  | none => exact h
  | some ci =>
    dsimp only
    apply broadcast_preserves HelpSessionExclusive (fun tid s => helpEx_disconnect_technician tid)
    exact clientsOk_dupdate h (fun ci' _ => clientOk_setHelpRequested_false ci')

theorem helpEx_handle_control_request (fails : Dest → Bool) (tid cid : String) {s : ServerState}
    (h : HelpSessionExclusive s) :
    HelpSessionExclusive (handle_control_request fails tid cid s).1 := by
  unfold handle_control_request
  split
  · exact h
  · exact h

theorem helpEx_handle_control_response (fails : Dest → Bool) (cid tid : String)
    (approved : Bool) (sid : String) {s : ServerState} (h : HelpSessionExclusive s) :
    HelpSessionExclusive (handle_control_response fails cid tid approved sid s).1 := by
  unfold handle_control_response
  split
  · dsimp only
    by_cases ha : approved = true
    · rw [if_pos ha]
      dsimp only
      apply broadcast_preserves HelpSessionExclusive (fun t s => helpEx_disconnect_technician t)
      exact clientsOk_dupdate h (fun ci' _ => clientOk_approveClient sid ci')
    · rw [if_neg ha]
      exact h
  · exact h

theorem helpEx_handle_end_session (tid sid : String) {s : ServerState}
    (h : HelpSessionExclusive s) :
    HelpSessionExclusive (handle_end_session tid sid s) := by
  unfold handle_end_session
  cases hS : dlookup sid s.active_sessions with
  | none => exact h
  | some sess =>
    dsimp only
    have hmid : ∀ (t : ServerState), ClientsOk t.clients →
        ClientsOk (if (dlookup tid t.technicians).isSome = true then
          { t with technicians := dupdate tid (setAssignedClient none) t.technicians }
          else t).clients := by
      intro t ht
      by_cases hc : (dlookup tid t.technicians).isSome = true
      · rw [if_pos hc]
        exact ht
      · rw [if_neg hc]
        exact ht
    by_cases hc1 : (dlookup sess.client_id
        { s with active_sessions := derase sid s.active_sessions }.clients).isSome = true
    · rw [if_pos hc1]
      exact hmid _ (clientsOk_dupdate h (fun ci' _ => clientOk_setSessionId_none ci'))
    · rw [if_neg hc1]
      exact hmid _ h

theorem helpEx_of_reachableGuardedHelp {s : ServerState} (h : ReachableGuardedHelp s) :
    HelpSessionExclusive s := by
  induction h with
  | init =>
    intro cid ci hlk
    simp [dlookup] at hlk
  | registerClient s fails cid ip name _ _ ih =>
    exact helpEx_handle_client_connection fails cid ip name ih
  | registerTech s fails tid ip name _ _ ih =>
    exact helpEx_handle_technician_connection fails tid ip name ih
  | helpRequest s fails cid ts _ hg ih =>
    exact helpEx_handle_help_request fails cid ts ih hg
  | cancelHelp s fails cid _ ih =>
    exact helpEx_handle_cancel_help fails cid ih
  | controlRequest s fails tid cid _ ih =>
    exact helpEx_handle_control_request fails tid cid ih
  | controlResponse s fails cid tid approved sid _ _ ih =>
    exact helpEx_handle_control_response fails cid tid approved sid ih
  | endSession s tid sid _ ih =>
    exact helpEx_handle_end_session tid sid ih
  | disconnectClient s fails cid _ ih =>
    exact helpEx_disconnect_client fails cid ih
  | disconnectTech s tid _ ih =>
    exact helpEx_disconnect_technician tid ih

/-- C1 is false as stated: the state `demoHelpInSession` is reachable by
register / helpRequest / controlResponse / helpRequest operations, and in it
client c1 has `help_requested = true` together with `session_id = some "s1"`,
because `handle_help_request` does not check for an active session. -/
theorem c1_counterexample_help_and_session_both_set :
    BrokerReachable demoHelpInSession ∧
      dlookup "c1" demoHelpInSession.clients =
        some { ip := "10.0.0.1", name := "alice", help_requested := true,
               session_id := some "s1" } := by
  constructor
  · have h0 : BrokerReachable initialState := BrokerReachable.init
    have h1 := BrokerReachable.registerClient initialState nofail "c1" "10.0.0.1" "alice"
      h0 (by decide)
    have h2 := BrokerReachable.registerTech demoClient nofail "t1" "10.0.0.2" "bob"
      h1 (by decide)
    have h3 := BrokerReachable.helpRequest demoTech nofail "c1" "ts0" h2
    have h4 := BrokerReachable.controlResponse demoHelp nofail "c1" "t1" true "s1"
      h3 (fun _ => by decide)
    exact BrokerReachable.helpRequest demoSession nofail "c1" "ts1" h4
  · decide

/-- C1 (amended): in every broker state reachable when help requests are only
submitted by clients with no active session — which is what the client agent
UI enforces — `help_requested` and `session_id` are mutually exclusive for
every registered client. -/
theorem c1_amended_help_session_exclusive {s : ServerState}
    (h : ReachableGuardedHelp s) :
    ∀ cid ci, dlookup cid s.clients = some ci →
      (ci.help_requested = true → ci.session_id = none) ∧
      (ci.session_id ≠ none → ci.help_requested = false) := by
  intro cid ci hlk
  have h1 := helpEx_of_reachableGuardedHelp h cid ci hlk
  refine ⟨h1, ?_⟩
  intro hs
  cases hb : ci.help_requested with
  | false => rfl
  | true => exact absurd (h1 hb) hs

/-- Witness for the amended C1 at the concrete guarded run ending in
`demoHelp`, whose client has a pending help request. -/
theorem c1_amended_witness :
    dlookup "c1" demoHelp.clients =
      some { ip := "10.0.0.1", name := "alice", help_requested := true,
             session_id := none } ∧
    (∀ cid ci, dlookup cid demoHelp.clients = some ci →
      (ci.help_requested = true → ci.session_id = none) ∧
      (ci.session_id ≠ none → ci.help_requested = false)) := by
  constructor
  · decide
  · apply c1_amended_help_session_exclusive
    have h0 : ReachableGuardedHelp initialState := ReachableGuardedHelp.init
    have h1 := ReachableGuardedHelp.registerClient initialState nofail "c1" "10.0.0.1" "alice"
      h0 (by decide)
    have h2 := ReachableGuardedHelp.registerTech demoClient nofail "t1" "10.0.0.2" "bob"
      h1 (by decide)
    have hg : ∀ ci, dlookup "c1" demoTech.clients = some ci → ci.session_id = none := by
      intro ci hci
      have e : dlookup "c1" demoTech.clients =
          some { ip := "10.0.0.1", name := "alice", help_requested := false,
                 session_id := none } := by decide
      rw [e] at hci
      injection hci with hci
      rw [← hci]
    exact ReachableGuardedHelp.helpRequest demoTech nofail "c1" "ts0" h2 hg

/-!
Preservation of session cross-reference consistency (claim C2).
-/

theorem sc_same_client {s : ServerState} (h : SessionsConsistent s)
    {sid1 sid2 : String} {se1 se2 : SessionInfo}
    (hlk1 : dlookup sid1 s.active_sessions = some se1)
    (hlk2 : dlookup sid2 s.active_sessions = some se2)
    (he : se1.client_id = se2.client_id) : sid1 = sid2 := by
  obtain ⟨ci1, hci1, hci1s⟩ := (h.2 sid1 se1 hlk1).1
  obtain ⟨ci2, hci2, hci2s⟩ := (h.2 sid2 se2 hlk2).1
  rw [he] at hci1
  rw [hci2] at hci1
  injection hci1 with e
  rw [← e, hci2s] at hci1s
  injection hci1s with e2
  exact e2.symm

theorem sc_same_tech {s : ServerState} (h : SessionsConsistent s)
    {sid1 sid2 : String} {se1 se2 : SessionInfo}
    (hlk1 : dlookup sid1 s.active_sessions = some se1)
    (hlk2 : dlookup sid2 s.active_sessions = some se2)
    (he : se1.tech_id = se2.tech_id) : sid1 = sid2 := by
  obtain ⟨ti1, hti1, hti1a⟩ := (h.2 sid1 se1 hlk1).2
  obtain ⟨ti2, hti2, hti2a⟩ := (h.2 sid2 se2 hlk2).2
  rw [he] at hti1
  rw [hti2] at hti1
  injection hti1 with e
  rw [← e, hti2a] at hti1a
  injection hti1a with e2
  exact sc_same_client h hlk1 hlk2 e2.symm

theorem sc_disconnect_technician (tid : String) {s : ServerState}
    (h : SessionsConsistent s) : SessionsConsistent (disconnect_technician tid s) := by
  obtain ⟨hnd, hsc⟩ := h
  unfold disconnect_technician
  cases hT : dlookup tid s.technicians with
  | none => exact ⟨hnd, hsc⟩
  | some ti =>
    dsimp only
    cases hA : ti.assigned_client with
    | none =>
      refine ⟨hnd, ?_⟩
      intro sid sess hlk
      obtain ⟨hcp, ti', hti', hassn⟩ := hsc sid sess hlk
      have hne : sess.tech_id ≠ tid := by
        intro e
        rw [e, hT] at hti'
        injection hti' with e2
        rw [← e2, hA] at hassn
        injection hassn
      refine ⟨hcp, ti', ?_, hassn⟩
      rw [dlookup_derase_ne _ hne]
      exact hti'
    | some ac =>
      dsimp only
      by_cases hc : (dlookup ac s.clients).isSome = true
      · rw [if_pos hc]
        cases hF : s.active_sessions.find?
            (fun (q : String × SessionInfo) => q.2.tech_id == tid) with
        | none =>
          refine ⟨hnd, ?_⟩
          intro sid sess hlk
          obtain ⟨hcp, ti', hti', hassn⟩ := hsc sid sess hlk
          have hne : sess.tech_id ≠ tid := by
            intro e
            have hmem := mem_of_dlookup hlk
            have hnp := List.find?_eq_none.mp hF _ hmem
            simp [e] at hnp
          refine ⟨hcp, ti', ?_, hassn⟩
          rw [dlookup_derase_ne _ hne]
          exact hti'
        | some q =>
          have hqmem := List.mem_of_find?_eq_some hF
          have hqtech : q.2.tech_id = tid := by
            have := List.find?_some hF
            simpa using this
          have hqlk : dlookup q.1 s.active_sessions = some q.2 :=
            dlookup_of_mem_nodup hnd hqmem
          obtain ⟨tiq, htiq, htiqa⟩ := (hsc q.1 q.2 hqlk).2
          have htiq' : tiq = ti := by
            rw [hqtech, hT] at htiq
            injection htiq with e
            exact e.symm
          have hqc : q.2.client_id = ac := by
            rw [htiq', hA] at htiqa
            injection htiqa with e2
            exact e2.symm
          refine ⟨nodup_keys_derase _ hnd, ?_⟩
          intro sid sess hlk
          have hsidne : sid ≠ q.1 := by
            intro e
            rw [e, dlookup_derase_self] at hlk
            injection hlk
          rw [dlookup_derase_ne _ hsidne] at hlk
          obtain ⟨⟨ci', hci', hcis⟩, ti', hti', htia⟩ := hsc sid sess hlk
          have htne : sess.tech_id ≠ tid := by
            intro e
            exact hsidne (sc_same_tech ⟨hnd, hsc⟩ hlk hqlk (by rw [e, hqtech]))
          have hclne : sess.client_id ≠ ac := by
            intro e
            exact hsidne (sc_same_client ⟨hnd, hsc⟩ hlk hqlk (by rw [e, hqc]))
          refine ⟨⟨ci', ?_, hcis⟩, ti', ?_, htia⟩
          · rw [dlookup_dupdate_ne _ _ hclne]
            exact hci'
          · rw [dlookup_derase_ne _ htne]
            exact hti'
      · rw [if_neg hc]
        refine ⟨hnd, ?_⟩
        intro sid sess hlk
        obtain ⟨⟨ci', hci', hcis⟩, ti', hti', htia⟩ := hsc sid sess hlk
        have hne : sess.tech_id ≠ tid := by
          intro e
          rw [e, hT] at hti'
          injection hti' with e2
          rw [← e2, hA] at htia
          injection htia with e3
          rw [← e3] at hci'
          rw [hci'] at hc
          exact hc rfl
        refine ⟨⟨ci', hci', hcis⟩, ti', ?_, htia⟩
        rw [dlookup_derase_ne _ hne]
        exact hti'

theorem sc_session_of_client {s : ServerState} (h : SessionsConsistent s)
    {sid : String} {sess : SessionInfo} {cid : String} {ci : ClientInfo}
    (hlk : dlookup sid s.active_sessions = some sess)
    (hC : dlookup cid s.clients = some ci) (he : sess.client_id = cid) :
    ci.session_id = some sid := by
  obtain ⟨ci', hci', hcis⟩ := (h.2 sid sess hlk).1
  rw [he, hC] at hci'
  injection hci' with e
  rw [e]
  exact hcis

theorem sc_clients_dupdate {s : ServerState} (k : String) (f : ClientInfo → ClientInfo)
    (hf : ∀ ci, (f ci).session_id = ci.session_id) (h : SessionsConsistent s) :
    SessionsConsistent { s with clients := dupdate k f s.clients } := by
  obtain ⟨hnd, hsc⟩ := h
  refine ⟨hnd, ?_⟩
  intro sid sess hlk
  obtain ⟨⟨ci, hci, hcis⟩, hT⟩ := hsc sid sess hlk
  refine ⟨?_, hT⟩
  by_cases e : sess.client_id = k
  · rw [e] at hci
    refine ⟨f ci, ?_, by rw [hf]; exact hcis⟩
    rw [e, dlookup_dupdate_self, hci]
    rfl
  · exact ⟨ci, by rw [dlookup_dupdate_ne _ _ e]; exact hci, hcis⟩

theorem sc_disconnect_client (fails : Dest → Bool) (cid : String) {s : ServerState}
    (h : SessionsConsistent s) : SessionsConsistent (disconnect_client fails cid s).1 := by
  unfold disconnect_client
  cases hC : dlookup cid s.clients with
  | none => exact h
  | some ci =>
    dsimp only
    apply broadcast_preserves SessionsConsistent (fun t s => sc_disconnect_technician t)
    obtain ⟨hnd, hsc⟩ := h
    cases hS : ci.session_id with
    | none =>
      dsimp only
      refine ⟨hnd, ?_⟩
      intro sid' sess' hlk'
      obtain ⟨⟨ci', hci', hcis⟩, hT⟩ := hsc sid' sess' hlk'
      have hcne : sess'.client_id ≠ cid := by
        intro e
        have := sc_session_of_client ⟨hnd, hsc⟩ hlk' hC e
        rw [hS] at this
        injection this
      exact ⟨⟨ci', by rw [dlookup_derase_ne _ hcne]; exact hci', hcis⟩, hT⟩
    | some sid =>
      dsimp only
      by_cases ha : (dlookup sid s.active_sessions).isSome = true
      · rw [if_pos ha]
        simp only [dlookup_derase_self]
        refine ⟨nodup_keys_derase _ hnd, ?_⟩
        intro sid' sess' hlk'
        have hsidne : sid' ≠ sid := by
          intro e
          rw [e, dlookup_derase_self] at hlk'
          injection hlk'
        rw [dlookup_derase_ne _ hsidne] at hlk'
        obtain ⟨⟨ci', hci', hcis⟩, hT⟩ := hsc sid' sess' hlk'
        have hcne : sess'.client_id ≠ cid := by
          intro e
          have := sc_session_of_client ⟨hnd, hsc⟩ hlk' hC e
          rw [hS] at this
          injection this with e2
          exact hsidne e2.symm
        exact ⟨⟨ci', by rw [dlookup_derase_ne _ hcne]; exact hci', hcis⟩, hT⟩
      · rw [if_neg ha]
        refine ⟨hnd, ?_⟩
        intro sid' sess' hlk'
        replace hlk' : dlookup sid' s.active_sessions = some sess' := hlk'
        obtain ⟨⟨ci', hci', hcis⟩, hT⟩ := hsc sid' sess' hlk'
        have hcne : sess'.client_id ≠ cid := by
          intro e
          have := sc_session_of_client ⟨hnd, hsc⟩ hlk' hC e
          rw [hS] at this
          injection this with e2
          rw [← e2] at hlk'
          rw [hlk'] at ha
          exact ha rfl
        exact ⟨⟨ci', by rw [dlookup_derase_ne _ hcne]; exact hci', hcis⟩, hT⟩

theorem sc_handle_client_connection (fails : Dest → Bool) (cid ip name : String)
    {s : ServerState} (hfresh : dlookup cid s.clients = none) (h : SessionsConsistent s) :
    SessionsConsistent (handle_client_connection fails cid ip name s).1 := by
  unfold handle_client_connection
  dsimp only
  have h1 : SessionsConsistent
      { s with clients := dinsert cid ⟨ip, name, false, none⟩ s.clients } := by
    obtain ⟨hnd, hsc⟩ := h
    refine ⟨hnd, ?_⟩
    intro sid sess hlk
    obtain ⟨⟨ci, hci, hcis⟩, hT⟩ := hsc sid sess hlk
    have hne : sess.client_id ≠ cid := by
      intro e
      rw [e, hfresh] at hci
      injection hci
    exact ⟨⟨ci, by rw [dlookup_dinsert_ne _ _ hne]; exact hci, hcis⟩, hT⟩
  by_cases hf : fails (Dest.toClient cid) = true
  · rw [if_pos hf]
    exact sc_disconnect_client fails cid h1
  · rw [if_neg hf]
    exact h1

theorem sc_handle_technician_connection (fails : Dest → Bool) (tid ip name : String)
    {s : ServerState} (hfresh : dlookup tid s.technicians = none) (h : SessionsConsistent s) :
    SessionsConsistent (handle_technician_connection fails tid ip name s).1 := by
  unfold handle_technician_connection
  dsimp only
  have h1 : SessionsConsistent
      { s with technicians := dinsert tid ⟨ip, name, none⟩ s.technicians } := by
    obtain ⟨hnd, hsc⟩ := h
    refine ⟨hnd, ?_⟩
    intro sid sess hlk
    obtain ⟨hcp, ti, hti, htia⟩ := hsc sid sess hlk
    have hne : sess.tech_id ≠ tid := by
      intro e
      rw [e, hfresh] at hti
      injection hti
    exact ⟨hcp, ti, by rw [dlookup_dinsert_ne _ _ hne]; exact hti, htia⟩
  by_cases hf : fails (Dest.toTech tid) = true
  · rw [if_pos hf]
    exact sc_disconnect_technician tid h1
  · rw [if_neg hf]
    exact h1

theorem sc_handle_help_request (fails : Dest → Bool) (cid ts : String) {s : ServerState}
    (h : SessionsConsistent s) : SessionsConsistent (handle_help_request fails cid ts s).1 := by
  unfold handle_help_request
  cases hC : dlookup cid s.clients with
  | none => exact h
  | some ci =>
    dsimp only
    apply broadcast_preserves SessionsConsistent (fun t s => sc_disconnect_technician t)
    exact sc_clients_dupdate cid (setHelpRequested true) (fun _ => rfl) h

theorem sc_handle_cancel_help (fails : Dest → Bool) (cid : String) {s : ServerState}
    (h : SessionsConsistent s) : SessionsConsistent (handle_cancel_help fails cid s).1 := by
  unfold handle_cancel_help
  cases hC : dlookup cid s.clients with
  | none => exact h
  | some ci =>
    dsimp only
    apply broadcast_preserves SessionsConsistent (fun t s => sc_disconnect_technician t)
    exact sc_clients_dupdate cid (setHelpRequested false) (fun _ => rfl) h

theorem sc_handle_control_request (fails : Dest → Bool) (tid cid : String) {s : ServerState}
    (h : SessionsConsistent s) : SessionsConsistent (handle_control_request fails tid cid s).1 := by
  unfold handle_control_request
  split
  · exact h
  · exact h

theorem sc_handle_control_response (fails : Dest → Bool) (cid tid : String)
    (approved : Bool) (sid : String) {s : ServerState} (h : SessionsConsistent s)
    (hfresh : approved = true → dlookup sid s.active_sessions = none)
    (hcg : approved = true → ∀ ci, dlookup cid s.clients = some ci → ci.session_id = none)
    (htg : approved = true → ∀ ti, dlookup tid s.technicians = some ti →
      ti.assigned_client = none) :
    SessionsConsistent (handle_control_response fails cid tid approved sid s).1 := by
  unfold handle_control_response
  cases hT : dlookup tid s.technicians with
  | none =>
    cases hC : dlookup cid s.clients with
    | none => exact h
    | some ci => exact h
  | some ti =>
    cases hC : dlookup cid s.clients with
    | none => exact h
    | some ci =>
      dsimp only
      by_cases happ : approved = true
      · rw [if_pos happ]
        dsimp only
        apply broadcast_preserves SessionsConsistent (fun t s => sc_disconnect_technician t)
        obtain ⟨hnd, hsc⟩ := h
        have hfr := hfresh happ
        have hcs : ci.session_id = none := hcg happ ci hC
        have hta : ti.assigned_client = none := htg happ ti hT
        refine ⟨nodup_keys_dinsert_fresh _ hfr hnd, ?_⟩
        intro sid' sess' hlk'
        by_cases e : sid' = sid
        · subst e
          rw [dlookup_dinsert_self] at hlk'
          injection hlk' with e2
          rw [← e2]
          constructor
          · refine ⟨approveClient sid' ci, ?_, rfl⟩
            show dlookup cid (dupdate cid (approveClient sid') s.clients) =
              some (approveClient sid' ci)
            rw [dlookup_dupdate_self, hC]
            rfl
          · refine ⟨setAssignedClient (some cid) ti, ?_, rfl⟩
            show dlookup tid (dupdate tid (setAssignedClient (some cid)) s.technicians) =
              some (setAssignedClient (some cid) ti)
            rw [dlookup_dupdate_self, hT]
            rfl
        · rw [dlookup_dinsert_ne _ _ e] at hlk'
          obtain ⟨⟨ci', hci', hcis⟩, ti', hti', htia⟩ := hsc sid' sess' hlk'
          have hcne : sess'.client_id ≠ cid := by
            intro e2
            have := sc_session_of_client ⟨hnd, hsc⟩ hlk' hC e2
            rw [hcs] at this
            injection this
          have htne : sess'.tech_id ≠ tid := by
            intro e2
            rw [e2, hT] at hti'
            injection hti' with e3
            rw [← e3, hta] at htia
            injection htia
          exact ⟨⟨ci', by rw [dlookup_dupdate_ne _ _ hcne]; exact hci', hcis⟩,
                 ti', by rw [dlookup_dupdate_ne _ _ htne]; exact hti', htia⟩
      · rw [if_neg happ]
        exact h

theorem sc_handle_end_session (tid sid : String) {s : ServerState}
    (h : SessionsConsistent s)
    (hguard : ∀ sess, dlookup sid s.active_sessions = some sess → sess.tech_id = tid) :
    SessionsConsistent (handle_end_session tid sid s) := by
  unfold handle_end_session
  cases hS : dlookup sid s.active_sessions with
  | none => exact h
  | some session =>
    dsimp only
    obtain ⟨hnd, hsc⟩ := h
    have hts : session.tech_id = tid := hguard session hS
    obtain ⟨⟨ci0, hci0, hci0s⟩, ti0, hti0, hti0a⟩ := hsc sid session hS
    rw [if_pos (show (dlookup session.client_id s.clients).isSome = true from by
      rw [hci0]; rfl)]
    rw [hts] at hti0
    rw [if_pos (show (dlookup tid s.technicians).isSome = true from by rw [hti0]; rfl)]
    refine ⟨nodup_keys_derase _ hnd, ?_⟩
    intro sid' sess' hlk'
    replace hlk' : dlookup sid' (derase sid s.active_sessions) = some sess' := hlk'
    have hsidne : sid' ≠ sid := by
      intro e
      rw [e, dlookup_derase_self] at hlk'
      injection hlk'
    rw [dlookup_derase_ne _ hsidne] at hlk'
    obtain ⟨⟨ci', hci', hcis⟩, ti', hti', htia⟩ := hsc sid' sess' hlk'
    have hcne : sess'.client_id ≠ session.client_id := by
      intro e
      exact hsidne (sc_same_client ⟨hnd, hsc⟩ hlk' hS e)
    have htne : sess'.tech_id ≠ tid := by
      intro e
      exact hsidne (sc_same_tech ⟨hnd, hsc⟩ hlk' hS (by rw [e, hts]))
    exact ⟨⟨ci', by rw [dlookup_dupdate_ne _ _ hcne]; exact hci', hcis⟩,
           ti', by rw [dlookup_dupdate_ne _ _ htne]; exact hti', htia⟩

theorem sc_of_reachableGuardedSessions {s : ServerState} (h : ReachableGuardedSessions s) :
    SessionsConsistent s := by
  induction h with
  | init =>
    refine ⟨List.nodup_nil, ?_⟩
    intro sid sess hlk
    simp [dlookup] at hlk
  | registerClient s fails cid ip name _ hfresh ih =>
    exact sc_handle_client_connection fails cid ip name hfresh ih
  | registerTech s fails tid ip name _ hfresh ih =>
    exact sc_handle_technician_connection fails tid ip name hfresh ih
  | helpRequest s fails cid ts _ ih =>
    exact sc_handle_help_request fails cid ts ih
  | cancelHelp s fails cid _ ih =>
    exact sc_handle_cancel_help fails cid ih
  | controlRequest s fails tid cid _ ih =>
    exact sc_handle_control_request fails tid cid ih
  | controlResponse s fails cid tid approved sid _ hfresh hcg htg ih =>
    exact sc_handle_control_response fails cid tid approved sid ih hfresh hcg htg
  | endSession s tid sid _ hguard ih =>
    exact sc_handle_end_session tid sid ih hguard
  | disconnectClient s fails cid _ ih =>
    exact sc_disconnect_client fails cid ih
  | disconnectTech s tid _ ih =>
    exact sc_disconnect_technician tid ih

theorem sc_pairwise {s : ServerState} (h : SessionsConsistent s) :
    List.Pairwise (fun a b : String × SessionInfo =>
      a.2.client_id ≠ b.2.client_id ∧ a.2.tech_id ≠ b.2.tech_id) s.active_sessions := by
  obtain ⟨hnd, hsc⟩ := h
  have hp : List.Pairwise (fun a b : String × SessionInfo => a.1 ≠ b.1) s.active_sessions :=
    List.pairwise_map.mp hnd
  refine hp.imp_of_mem ?_
  intro a b ha hb hne
  constructor
  · intro e
    exact hne (sc_same_client ⟨hnd, hsc⟩ (dlookup_of_mem_nodup hnd ha)
      (dlookup_of_mem_nodup hnd hb) e)
  · intro e
    exact hne (sc_same_tech ⟨hnd, hsc⟩ (dlookup_of_mem_nodup hnd ha)
      (dlookup_of_mem_nodup hnd hb) e)

/-- C2 is false as stated: `demoDupSession` is reachable (the client, already
in session s1 with t1, approves a second control request from t2, which
`handle_control_response` does not prevent), and its two active sessions both
reference client c1. -/
theorem c2_counterexample_duplicate_client_sessions :
    BrokerReachable demoDupSession ∧
      demoDupSession.active_sessions =
        [("s1", ⟨"c1", "t1"⟩), ("s2", ⟨"c1", "t2"⟩)] ∧
      ¬ List.Pairwise (fun a b : String × SessionInfo =>
          a.2.client_id ≠ b.2.client_id ∧ a.2.tech_id ≠ b.2.tech_id)
        demoDupSession.active_sessions := by
  refine ⟨?_, by decide, by decide⟩
  have h0 : BrokerReachable initialState := BrokerReachable.init
  have h1 := BrokerReachable.registerClient initialState nofail "c1" "10.0.0.1" "alice"
    h0 (by decide)
  have h2 := BrokerReachable.registerTech demoClient nofail "t1" "10.0.0.2" "bob"
    h1 (by decide)
  have h3 := BrokerReachable.helpRequest demoTech nofail "c1" "ts0" h2
  have h4 := BrokerReachable.controlResponse demoHelp nofail "c1" "t1" true "s1"
    h3 (fun _ => by decide)
  have h5 := BrokerReachable.registerTech demoSession nofail "t2" "10.0.0.3" "carol"
    h4 (by decide)
  exact BrokerReachable.controlResponse demoTech2 nofail "c1" "t2" true "s2"
    h5 (fun _ => by decide)

/-- C2 (amended): in every broker state reachable when control approvals only
happen for a session-free client and an unassigned technician, and end_session
is only sent by the technician recorded in that session — the discipline the
agents follow — no two active sessions share a client id and no two share a
technician id. -/
theorem c2_amended_no_shared_ids {s : ServerState} (h : ReachableGuardedSessions s) :
    List.Pairwise (fun a b : String × SessionInfo =>
      a.2.client_id ≠ b.2.client_id ∧ a.2.tech_id ≠ b.2.tech_id) s.active_sessions :=
  sc_pairwise (sc_of_reachableGuardedSessions h)

/-- Witness for the amended C2 at the concrete guarded run ending in
`demoSession`, which holds one active session. -/
theorem c2_amended_witness :
    demoSession.active_sessions = [("s1", ⟨"c1", "t1"⟩)] ∧
    List.Pairwise (fun a b : String × SessionInfo =>
      a.2.client_id ≠ b.2.client_id ∧ a.2.tech_id ≠ b.2.tech_id)
      demoSession.active_sessions := by
  constructor
  · decide
  · apply c2_amended_no_shared_ids
    have h0 : ReachableGuardedSessions initialState := ReachableGuardedSessions.init
    have h1 := ReachableGuardedSessions.registerClient initialState nofail "c1" "10.0.0.1"
      "alice" h0 (by decide)
    have h2 := ReachableGuardedSessions.registerTech demoClient nofail "t1" "10.0.0.2"
      "bob" h1 (by decide)
    have h3 := ReachableGuardedSessions.helpRequest demoTech nofail "c1" "ts0" h2
    have hcg : ∀ ci, dlookup "c1" demoHelp.clients = some ci → ci.session_id = none := by
      intro ci hci
      have e : dlookup "c1" demoHelp.clients =
          some { ip := "10.0.0.1", name := "alice", help_requested := true,
                 session_id := none } := by decide
      rw [e] at hci
      injection hci with hci
      rw [← hci]
    have htg : ∀ ti, dlookup "t1" demoHelp.technicians = some ti →
        ti.assigned_client = none := by
      intro ti hti
      have e : dlookup "t1" demoHelp.technicians =
          some { ip := "10.0.0.2", name := "bob", assigned_client := none } := by decide
      rw [e] at hti
      injection hti with hti
      rw [← hti]
    exact ReachableGuardedSessions.controlResponse demoHelp nofail "c1" "t1" true "s1"
      h3 (fun _ => by decide) (fun _ => hcg) (fun _ => htg)

/-- C3 fails on the code: disconnecting client c1, which is in active session
s1 with technician t1, does delete the session, but `disconnect_client`
re-reads the session dict only after the deletion, so t1's `assigned_client`
is never reset and still names c1 afterwards. -/
theorem c3_disconnect_client_leaves_assigned_client :
    (disconnect_client nofail "c1" demoSession).1.active_sessions = [] ∧
    dlookup "t1" (disconnect_client nofail "c1" demoSession).1.technicians =
      some { ip := "10.0.0.2", name := "bob", assigned_client := some "c1" } := by
  constructor
  · decide
  · decide

/-- C5 fails on the code for the client-initiated direction: an `end_session`
sent by the session's client is dispatched by `process_client_message`, which
has no branch for it, so the broker state — the live session included — is
unchanged; the same message from the technician does remove the session. -/
theorem c5_client_end_session_ignored :
    process_client_message nofail "c1" (ClientMsg.end_session "s1") demoSession =
      (demoSession, []) ∧
    dlookup "s1" demoSession.active_sessions = some ⟨"c1", "t1"⟩ ∧
    (handle_end_session "t1" "s1" demoSession).active_sessions = [] := by
  refine ⟨by decide, by decide, by decide⟩

/-- C6: `handle_end_session` with a session id absent from the active-sessions
map returns the state unchanged (all four registries included) and, being a
total function, raises nothing. -/
theorem c6_end_session_unknown_noop (tid sid : String) (s : ServerState)
    (h : dlookup sid s.active_sessions = none) :
    handle_end_session tid sid s = s := by
  unfold handle_end_session
  rw [h]

/-- Witness for C6 at a concrete state holding one session and an unknown id. -/
theorem c6_end_session_unknown_noop_witness :
    dlookup "zz" demoSession.active_sessions = none ∧
    handle_end_session "t1" "zz" demoSession = demoSession :=
  ⟨by decide, c6_end_session_unknown_noop "t1" "zz" demoSession (by decide)⟩

theorem dtech_clients_none (tid cid : String) {s : ServerState}
    (h : dlookup cid s.clients = none) :
    dlookup cid (disconnect_technician tid s).clients = none := by
  unfold disconnect_technician
  cases hT : dlookup tid s.technicians with
  | none => exact h
  | some ti =>
    dsimp only
    cases hA : ti.assigned_client with
    | none => exact h
    | some ac =>
      dsimp only
      by_cases hc : (dlookup ac s.clients).isSome = true
      · rw [if_pos hc]
        cases hF : s.active_sessions.find?
            (fun (q : String × SessionInfo) => q.2.tech_id == tid) with
        | none => exact h
        | some q =>
          show dlookup cid (dupdate ac (setSessionId none) s.clients) = none
          by_cases e : cid = ac
          · subst e
            rw [dlookup_dupdate_self, h]
            rfl
          · rw [dlookup_dupdate_ne _ _ e]
            exact h
      · rw [if_neg hc]
        exact h

theorem dclient_clients_none (fails : Dest → Bool) (cid : String) (s : ServerState) :
    dlookup cid (disconnect_client fails cid s).1.clients = none := by
  unfold disconnect_client
  cases hC : dlookup cid s.clients with
  | none => exact hC
  | some ci =>
    dsimp only
    apply broadcast_preserves (fun st => dlookup cid st.clients = none)
      (fun tid st h => dtech_clients_none tid cid h)
    show dlookup cid (derase cid _) = none
    exact dlookup_derase_self cid _

theorem dtech_technicians_none (tid : String) (s : ServerState) :
    dlookup tid (disconnect_technician tid s).technicians = none := by
  unfold disconnect_technician
  cases hT : dlookup tid s.technicians with
  | none => exact hT
  | some ti =>
    dsimp only
    exact dlookup_derase_self tid _

/-- C10: cleanup of an id absent from its registry returns immediately with no
state change, in both `disconnect_client` and `disconnect_technician`; hence
running either cleanup a second time for the same id is a no-op. -/
theorem c10_disconnect_unknown_noop_idempotent :
    (∀ (fails : Dest → Bool) (cid : String) (s : ServerState),
      dlookup cid s.clients = none → disconnect_client fails cid s = (s, [])) ∧
    (∀ (tid : String) (s : ServerState),
      dlookup tid s.technicians = none → disconnect_technician tid s = s) ∧
    (∀ (fails : Dest → Bool) (cid : String) (s : ServerState),
      disconnect_client fails cid (disconnect_client fails cid s).1 =
        ((disconnect_client fails cid s).1, [])) ∧
    (∀ (tid : String) (s : ServerState),
      disconnect_technician tid (disconnect_technician tid s) =
        disconnect_technician tid s) := by
  have h1 : ∀ (fails : Dest → Bool) (cid : String) (s : ServerState),
      dlookup cid s.clients = none → disconnect_client fails cid s = (s, []) := by
    intro fails cid s h
    unfold disconnect_client
    rw [h]
  have h2 : ∀ (tid : String) (s : ServerState),
      dlookup tid s.technicians = none → disconnect_technician tid s = s := by
    intro tid s h
    unfold disconnect_technician
    rw [h]
  refine ⟨h1, h2, ?_, ?_⟩
  · intro fails cid s
    exact h1 fails cid _ (dclient_clients_none fails cid s)
  · intro tid s
    exact h2 tid _ (dtech_technicians_none tid s)

/-- Witness for C10 at concrete states: an unknown id is a no-op, and the
second of two disconnects for the same id has no effect. -/
theorem c10_disconnect_witness :
    dlookup "zz" demoSession.clients = none ∧
    disconnect_client nofail "zz" demoSession = (demoSession, []) ∧
    disconnect_technician "zz" demoSession = demoSession ∧
    disconnect_client nofail "c1" (disconnect_client nofail "c1" demoSession).1 =
      ((disconnect_client nofail "c1" demoSession).1, []) ∧
    disconnect_technician "t1" (disconnect_technician "t1" demoSession) =
      disconnect_technician "t1" demoSession :=
  ⟨by decide,
   c10_disconnect_unknown_noop_idempotent.1 nofail "zz" demoSession (by decide),
   c10_disconnect_unknown_noop_idempotent.2.1 "zz" demoSession (by decide),
   c10_disconnect_unknown_noop_idempotent.2.2.1 nofail "c1" demoSession,
   c10_disconnect_unknown_noop_idempotent.2.2.2 "t1" demoSession⟩

/-!
Exact effect of an approved control response (claim C4).
-/

theorem broadcast_nofail_foldl (m : Msg) (t : String) :
    ∀ (l : List (String × TechInfo)) (acc : ServerState × List Send),
      l.foldl (broadcast_step nofail m (some t)) acc =
        (acc.1, acc.2 ++ (l.filter (fun p => p.1 ≠ t)).map
          (fun p => (Dest.toTech p.1, m))) := by
  intro l
  induction l with
  | nil =>
    intro acc
    simp
  | cons p l ih =>
    intro acc
    rw [List.foldl_cons, ih]
    unfold broadcast_step
    by_cases e : t = p.1
    · rw [if_pos (by rw [e]), List.filter_cons]
      have hd : (decide (p.1 ≠ t)) = false := by simp [e]
      rw [hd, if_neg Bool.false_ne_true]
    · rw [if_neg (fun h2 => e (Option.some.inj h2)),
        if_neg (show ¬nofail (Dest.toTech p.1) = true from Bool.false_ne_true),
        List.filter_cons]
      have hd : (decide (p.1 ≠ t)) = true := decide_eq_true (fun h2 => e h2.symm)
      rw [hd, if_pos rfl]
      simp

theorem broadcast_nofail (m : Msg) (t : String) (s : ServerState) :
    broadcast_to_technicians nofail m (some t) s =
      (s, (s.technicians.filter (fun p => p.1 ≠ t)).map
        (fun p => (Dest.toTech p.1, m))) := by
  rw [broadcast_to_technicians, broadcast_nofail_foldl]
  simp

theorem filter_map_keys_dupdate (t : String) (f : TechInfo → TechInfo) (m : Msg) :
    ∀ l : List (String × TechInfo),
      ((dupdate t f l).filter (fun p => p.1 ≠ t)).map (fun p => (Dest.toTech p.1, m)) =
        (l.filter (fun p => p.1 ≠ t)).map (fun p => (Dest.toTech p.1, m)) := by
  intro l
  induction l with
  | nil => rfl
  | cons p l ih =>
    rw [dupdate_cons]
    by_cases e : p.1 = t
    · rw [if_pos e, List.filter_cons, List.filter_cons]
      have h1 : (decide ((t, f p.2).1 ≠ t)) = false := by simp
      have h2 : (decide (p.1 ≠ t)) = false := by simp [e]
      rw [h1, h2, if_neg Bool.false_ne_true, if_neg Bool.false_ne_true]
      exact ih
    · rw [if_neg e, List.filter_cons, List.filter_cons]
      have h2 : (decide (p.1 ≠ t)) = true := decide_eq_true e
      rw [h2, if_pos rfl, if_pos rfl]
      rw [List.map_cons, List.map_cons, ih]

/-- C4: an approved control response for a registered client and technician
creates the ActiveSession under the freshly drawn session id, points the
client's `session_id` at it and clears its `help_requested` flag, drops the
HelpRequest, records the client on the technician's `assigned_client`, sends
that technician `control_approved` with the client's ip, name and the session
id, and sends `client_unavailable` to exactly the other technicians in
registration order (the approved one excluded). -/
theorem c4_control_approved_effects (cid tid sid : String) (s : ServerState)
    (ti : TechInfo) (ci : ClientInfo)
    (hT : dlookup tid s.technicians = some ti)
    (hC : dlookup cid s.clients = some ci)
    (_hfresh : dlookup sid s.active_sessions = none) :
    dlookup sid (handle_control_response nofail cid tid true sid s).1.active_sessions =
      some ⟨cid, tid⟩ ∧
    dlookup cid (handle_control_response nofail cid tid true sid s).1.clients =
      some { ci with session_id := some sid, help_requested := false } ∧
    dlookup cid (handle_control_response nofail cid tid true sid s).1.help_requests = none ∧
    dlookup tid (handle_control_response nofail cid tid true sid s).1.technicians =
      some { ti with assigned_client := some cid } ∧
    (handle_control_response nofail cid tid true sid s).2 =
      (Dest.toTech tid, Msg.controlApproved cid ci.ip ci.name sid) ::
        (s.technicians.filter (fun p => p.1 ≠ tid)).map
          (fun p => (Dest.toTech p.1, Msg.clientUnavailable cid)) := by
  unfold handle_control_response
  simp only [hT, hC]
  rw [if_pos trivial]
  dsimp only
  rw [broadcast_nofail]
  refine ⟨?_, ?_, ?_, ?_, ?_⟩
  · exact dlookup_dinsert_self sid _ _
  · show dlookup cid (dupdate cid (approveClient sid) s.clients) = _
    rw [dlookup_dupdate_self, hC]
    rfl
  · exact dlookup_derase_self cid _
  · show dlookup tid (dupdate tid (setAssignedClient (some cid)) s.technicians) = _
    rw [dlookup_dupdate_self, hT]
    rfl
  · show trySend nofail (Dest.toTech tid) _ ++ _ = _
    rw [filter_map_keys_dupdate]
    rfl

/-- Witness for C4 at the concrete state `demoHelp` (client c1 requesting
help, technician t1 registered, no sessions). -/
theorem c4_control_approved_witness :
    dlookup "s1" (handle_control_response nofail "c1" "t1" true "s1" demoHelp).1.active_sessions =
      some ⟨"c1", "t1"⟩ ∧
    dlookup "c1" (handle_control_response nofail "c1" "t1" true "s1" demoHelp).1.clients =
      some { ip := "10.0.0.1", name := "alice", help_requested := false,
             session_id := some "s1" } ∧
    dlookup "c1" (handle_control_response nofail "c1" "t1" true "s1" demoHelp).1.help_requests =
      none ∧
    dlookup "t1" (handle_control_response nofail "c1" "t1" true "s1" demoHelp).1.technicians =
      some { ip := "10.0.0.2", name := "bob", assigned_client := some "c1" } ∧
    (handle_control_response nofail "c1" "t1" true "s1" demoHelp).2 =
      (Dest.toTech "t1", Msg.controlApproved "c1" "10.0.0.1" "alice" "s1") ::
        (demoHelp.technicians.filter (fun p => p.1 ≠ "t1")).map
          (fun p => (Dest.toTech p.1, Msg.clientUnavailable "c1")) :=
  c4_control_approved_effects "c1" "t1" "s1" demoHelp
    { ip := "10.0.0.2", name := "bob", assigned_client := none }
    { ip := "10.0.0.1", name := "alice", help_requested := true, session_id := none }
    (by decide) (by decide) (by decide)

/-- C7: a frame transmitted as a 4-byte big-endian length followed by the
payload is reconstructed byte-identically by the looping receiver under every
decomposition of the byte stream into positive-size deliveries, one delivery
per `recv` call — a budget of one call per transmitted byte covers one-byte-at-
a-time delivery — and the bytes after the frame are left for the next read. -/
theorem c7_frame_roundtrip (payload rest ds : List Nat)
    (hlen : payload.length < 2 ^ 32)
    (hpos : ∀ d ∈ ds, 1 ≤ d)
    (hds : 4 + payload.length ≤ ds.length) :
    receiveFrame ds (sendFrame payload ++ rest) = some (payload, rest) := by
  have hstream : sendFrame payload ++ rest =
      toBytesBE4 payload.length ++ (payload ++ rest) := by
    rw [sendFrame, List.append_assoc]
  obtain ⟨ds1, heq1, hlen1, hpos1⟩ := recvLoop_spec 4 ds [] (sendFrame payload ++ rest)
    hpos
    (by
      simp only [List.length_nil, List.length_append, sendFrame, toBytesBE4]
      simp
      omega)
    (by simp only [List.length_nil, Nat.zero_add]; omega)
  have htake : (sendFrame payload ++ rest).take 4 = toBytesBE4 payload.length := by
    rw [hstream]
    exact List.take_left' (toBytesBE4_length payload.length)
  have hdrop : (sendFrame payload ++ rest).drop 4 = payload ++ rest := by
    rw [hstream]
    exact List.drop_left' (toBytesBE4_length payload.length)
  rw [show (4 : Nat) - ([] : List Nat).length = 4 from rfl, htake, hdrop,
    List.nil_append] at heq1
  obtain ⟨ds2, heq2, _, _⟩ := recvLoop_spec payload.length ds1 [] (payload ++ rest)
    hpos1
    (by simp)
    (by
      simp only [List.length_nil, Nat.zero_add]
      simp only [List.length_nil, Nat.sub_zero] at hlen1
      omega)
  have htake2 : (payload ++ rest).take (payload.length - ([] : List Nat).length) =
      payload := by
    simp only [List.length_nil, Nat.sub_zero]
    exact List.take_left' rfl
  have hdrop2 : (payload ++ rest).drop (payload.length - ([] : List Nat).length) =
      rest := by
    simp only [List.length_nil, Nat.sub_zero]
    exact List.drop_left' rfl
  rw [htake2, hdrop2, List.nil_append] at heq2
  rw [receiveFrame, recv_all, heq1]
  dsimp only
  rw [fromBytesBE_toBytesBE4 hlen, recv_all, heq2]

/-- Witness for C7: the frame for payload `[7, 42]` followed by a stray byte
`[9]`, delivered one byte per recv call, is reconstructed exactly. -/
theorem c7_frame_roundtrip_witness :
    (∀ d ∈ List.replicate 7 1, 1 ≤ d) ∧
    receiveFrame (List.replicate 7 1) (sendFrame [7, 42] ++ [9]) = some ([7, 42], [9]) :=
  ⟨by decide, c7_frame_roundtrip [7, 42] [9] (List.replicate 7 1)
    (by decide) (by decide) (by decide)⟩

/-!
Heartbeat-failure cleanup (claim C8).
-/

theorem dlookup_dupdate_none {β : Type} {t : String} (k : String) (f : β → β)
    {d : List (String × β)} (h : dlookup t d = none) :
    dlookup t (dupdate k f d) = none := by
  by_cases e : t = k
  · subst e
    rw [dlookup_dupdate_self, h]
    rfl
  · rw [dlookup_dupdate_ne _ _ e]
    exact h

theorem dlookup_derase_none {β : Type} {t : String} (k : String)
    {d : List (String × β)} (h : dlookup t d = none) :
    dlookup t (derase k d) = none := by
  by_cases e : t = k
  · subst e
    exact dlookup_derase_self t d
  · rw [dlookup_derase_ne _ e]
    exact h

theorem dtech_techs_none_general (tid' : String) {tid : String} {s : ServerState}
    (h : dlookup tid s.technicians = none) :
    dlookup tid (disconnect_technician tid' s).technicians = none := by
  unfold disconnect_technician
  cases hT : dlookup tid' s.technicians with
  | none => exact h
  | some ti =>
    dsimp only
    cases hA : ti.assigned_client with
    | none => exact dlookup_derase_none tid' h
    | some ac =>
      dsimp only
      by_cases hc : (dlookup ac s.clients).isSome = true
      · rw [if_pos hc]
        cases hF : s.active_sessions.find?
            (fun (q : String × SessionInfo) => q.2.tech_id == tid') with
        | none => exact dlookup_derase_none tid' h
        | some q => exact dlookup_derase_none tid' h
      · rw [if_neg hc]
        exact dlookup_derase_none tid' h

theorem dclient_techs_none (fails : Dest → Bool) (cid : String) {tid : String}
    {s : ServerState} (h : dlookup tid s.technicians = none) :
    dlookup tid (disconnect_client fails cid s).1.technicians = none := by
  unfold disconnect_client
  cases hC : dlookup cid s.clients with
  | none => exact h
  | some ci =>
    dsimp only
    apply broadcast_preserves (fun st => dlookup tid st.technicians = none)
      (fun t' st h' => dtech_techs_none_general t' h')
    cases hS : ci.session_id with
    | none => exact h
    | some sid =>
      dsimp only
      by_cases ha : (dlookup sid s.active_sessions).isSome = true
      · rw [if_pos ha]
        simp only [dlookup_derase_self]
        exact h
      · rw [if_neg ha]
        exact h

theorem hb_tech_step_none (fails : Dest → Bool) {tid : String} (tid' : String)
    (acc : ServerState × List Send) (h : dlookup tid acc.1.technicians = none) :
    dlookup tid (heartbeat_tech_step fails acc tid').1.technicians = none := by
  unfold heartbeat_tech_step
  by_cases hc : ((dlookup tid' acc.1.technicians).isSome &&
      !fails (Dest.toTech tid')) = true
  · rw [if_pos hc]
    exact h
  · rw [if_neg hc]
    exact dtech_techs_none_general tid' h

theorem hb_tech_fold_removes (fails : Dest → Bool) (tid : String)
    (hfail : fails (Dest.toTech tid) = true) :
    ∀ (l : List String) (acc : ServerState × List Send),
      (tid ∈ l ∨ dlookup tid acc.1.technicians = none) →
      dlookup tid (l.foldl (heartbeat_tech_step fails) acc).1.technicians = none := by
  intro l
  induction l with
  | nil =>
    intro acc h
    rcases h with h | h
    · simp at h
    · exact h
  | cons x l ih =>
    intro acc h
    rw [List.foldl_cons]
    apply ih
    rcases h with h | h
    · rcases List.mem_cons.mp h with h | h
      · subst h
        right
        unfold heartbeat_tech_step
        rw [if_neg (by rw [hfail]; simp)]
        exact dtech_technicians_none tid _
      · left
        exact h
    · right
      exact hb_tech_step_none fails x acc h

theorem broadcast_out_recipients (fails : Dest → Bool) (m : Msg) (excl : Option String) :
    ∀ (l : List (String × TechInfo)) (acc : ServerState × List Send) (p : Send),
      p ∈ (l.foldl (broadcast_step fails m excl) acc).2 →
      p ∈ acc.2 ∨ ∃ q ∈ l, p = (Dest.toTech q.1, m) := by
  intro l
  induction l with
  | nil =>
    intro acc p hp
    exact Or.inl hp
  | cons x l ih =>
    intro acc p hp
    rw [List.foldl_cons] at hp
    rcases ih _ p hp with h | ⟨q, hq, he⟩
    · unfold broadcast_step at h
      by_cases h1 : excl = some x.1
      · rw [if_pos h1] at h
        exact Or.inl h
      · rw [if_neg h1] at h
        by_cases h2 : fails (Dest.toTech x.1) = true
        · rw [if_pos h2] at h
          exact Or.inl h
        · rw [if_neg h2] at h
          rcases List.mem_append.mp h with h | h
          · exact Or.inl h
          · exact Or.inr ⟨x, List.mem_cons_self _ _, by simpa using h⟩
    · exact Or.inr ⟨q, List.mem_cons_of_mem _ hq, he⟩

theorem broadcast_step_techs_none (fails : Dest → Bool) (m : Msg) (excl : Option String)
    {tid : String} (acc : ServerState × List Send) (p : String × TechInfo)
    (h : dlookup tid acc.1.technicians = none) :
    dlookup tid (broadcast_step fails m excl acc p).1.technicians = none := by
  unfold broadcast_step
  by_cases h1 : excl = some p.1
  · rw [if_pos h1]
    exact h
  · rw [if_neg h1]
    by_cases h2 : fails (Dest.toTech p.1) = true
    · rw [if_pos h2]
      exact dtech_techs_none_general p.1 h
    · rw [if_neg h2]
      exact h

theorem broadcast_fold_removes (fails : Dest → Bool) (m : Msg) (excl : Option String)
    (tid : String) (hfail : fails (Dest.toTech tid) = true) (hexcl : excl ≠ some tid) :
    ∀ (l : List (String × TechInfo)) (acc : ServerState × List Send),
      ((∃ ti, (tid, ti) ∈ l) ∨ dlookup tid acc.1.technicians = none) →
      dlookup tid (l.foldl (broadcast_step fails m excl) acc).1.technicians = none := by
  intro l
  induction l with
  | nil =>
    intro acc h
    rcases h with ⟨ti, h⟩ | h
    · simp at h
    · exact h
  | cons p l ih =>
    intro acc h
    rw [List.foldl_cons]
    apply ih
    rcases h with ⟨ti, h⟩ | h
    · rcases List.mem_cons.mp h with h | h
      · right
        unfold broadcast_step
        rw [if_neg (by rw [← h]; exact hexcl)]
        rw [if_pos (by rw [← h]; exact hfail)]
        rw [← h]
        exact dtech_technicians_none tid _
      · left
        exact ⟨ti, h⟩
    · right
      exact broadcast_step_techs_none fails m excl acc p h

/-- C8: when the heartbeat send to a registered technician fails, one pass of
the heartbeat checker removes that technician from the registry; a failed
broadcast send to it likewise removes it — the same `disconnect_technician`
cleanup as a read failure — and afterwards no broadcast of any message
delivers anything to it. -/
theorem c8_heartbeat_failure_removes_technician (fails : Dest → Bool) (tid : String)
    (s : ServerState)
    (hreg : (dlookup tid s.technicians).isSome = true)
    (hfail : fails (Dest.toTech tid) = true) :
    dlookup tid (heartbeat_checker fails s).1.technicians = none ∧
    (∀ (m : Msg) (excl : Option String), excl ≠ some tid →
      dlookup tid (broadcast_to_technicians fails m excl s).1.technicians = none) ∧
    ∀ (fails2 : Dest → Bool) (m : Msg) (excl : Option String) (p : Send),
      p ∈ (broadcast_to_technicians fails2 m excl (heartbeat_checker fails s).1).2 →
      p.1 ≠ Dest.toTech tid := by
  have hrm : dlookup tid (heartbeat_checker fails s).1.technicians = none := by
    unfold heartbeat_checker
    dsimp only
    apply hb_tech_fold_removes fails tid hfail
    cases hl : dlookup tid
        ((s.clients.map Prod.fst).foldl (heartbeat_client_step fails) (s, [])).1.technicians with
    | some ti =>
      left
      exact mem_keys_of_dlookup (by rw [hl]; rfl)
    | none =>
      right
      rfl
  refine ⟨hrm, ?_, ?_⟩
  · intro m excl hexcl
    rw [broadcast_to_technicians]
    apply broadcast_fold_removes fails m excl tid hfail hexcl
    left
    obtain ⟨ti, hti⟩ := Option.isSome_iff_exists.mp hreg
    exact ⟨ti, mem_of_dlookup hti⟩
  intro fails2 m excl p hp
  rw [broadcast_to_technicians] at hp
  rcases broadcast_out_recipients fails2 m excl _ _ p hp with h | ⟨q, hq, he⟩
  · simp at h
  · intro hcontra
    rw [he] at hcontra
    have hq1 : q.1 = tid := by
      injection hcontra
    have : tid ∈ ((heartbeat_checker fails s).1.technicians.map Prod.fst) :=
      List.mem_map.mpr ⟨q, hq, hq1⟩
    have := dlookup_isSome_of_mem_keys this
    rw [hrm] at this
    exact absurd this (by simp)

/-- Witness for C8: with technician t1 registered in `demoSession` and its
heartbeat send failing, one checker pass leaves t1 absent from the registry. -/
theorem c8_heartbeat_failure_witness :
    (dlookup "t1" demoSession.technicians).isSome = true ∧
    dlookup "t1" (heartbeat_checker
      (fun d => decide (d = Dest.toTech "t1")) demoSession).1.technicians = none :=
  ⟨by decide,
   (c8_heartbeat_failure_removes_technician (fun d => decide (d = Dest.toTech "t1"))
     "t1" demoSession (by decide) (by decide)).1⟩

/-!
Single-controller accept loop (claim C9).
-/

theorem control_step_inv (s : ControlServerState) (ev : ControlEvent)
    (h : s.openConns = s.technician_socket.toList) :
    (control_step s ev).1.openConns = (control_step s ev).1.technician_socket.toList := by
  cases ev with
  | incoming c =>
    unfold control_step
    cases hs : s.technician_socket with
    | some t =>
      rw [hs] at h
      dsimp only
      rw [hs]
      exact h
    | none =>
      rw [hs] at h
      dsimp only
      rw [h]
      simp
  | dropTechnician =>
    unfold control_step
    cases hs : s.technician_socket with
    | some t =>
      rw [hs] at h
      dsimp only
      rw [h]
      simp
    | none =>
      rw [hs] at h
      dsimp only
      rw [hs]
      exact h

theorem control_run_inv (evs : List ControlEvent) :
    ∀ acc : ControlServerState × List ControlOutcome,
      acc.1.openConns = acc.1.technician_socket.toList →
      (evs.foldl (fun acc ev =>
          ((control_step acc.1 ev).1, acc.2 ++ (control_step acc.1 ev).2)) acc).1.openConns =
        (evs.foldl (fun acc ev =>
          ((control_step acc.1 ev).1, acc.2 ++ (control_step acc.1 ev).2))
            acc).1.technician_socket.toList := by
  induction evs with
  | nil =>
    intro acc h
    exact h
  | cons ev evs ih =>
    intro acc h
    rw [List.foldl_cons]
    exact ih _ (control_step_inv acc.1 ev h)

theorem option_toList_length_le_one (o : Option Nat) : o.toList.length ≤ 1 := by
  cases o <;> simp

/-- C9: while a technician control socket is held, every further incoming
connection is answered by closing it at once, with the held socket unchanged;
consequently, over any event sequence from startup, the client agent never
holds more than one open technician control socket. -/
theorem c9_single_controller :
    (∀ (s : ControlServerState) (c t : Nat), s.technician_socket = some t →
      control_step s (ControlEvent.incoming c) = (s, [ControlOutcome.rejected c])) ∧
    (∀ evs : List ControlEvent,
      (control_run evs controlServerInit).1.openConns.length ≤ 1) := by
  constructor
  · intro s c t h
    unfold control_step
    rw [h]
  · intro evs
    have h := control_run_inv evs (controlServerInit, []) rfl
    rw [control_run, h]
    exact option_toList_length_le_one _

/-- Witness for C9: with socket 5 held, incoming connection 7 is rejected and
the state is unchanged; a concrete event sequence never opens two sockets. -/
theorem c9_single_controller_witness :
    (⟨some 5, [5]⟩ : ControlServerState).technician_socket = some 5 ∧
    control_step ⟨some 5, [5]⟩ (ControlEvent.incoming 7) =
      (⟨some 5, [5]⟩, [ControlOutcome.rejected 7]) ∧
    (control_run [ControlEvent.incoming 1, ControlEvent.incoming 2,
      ControlEvent.dropTechnician, ControlEvent.incoming 3]
      controlServerInit).1.openConns.length ≤ 1 :=
  ⟨rfl, c9_single_controller.1 ⟨some 5, [5]⟩ 7 5 rfl,
   c9_single_controller.2 [ControlEvent.incoming 1, ControlEvent.incoming 2,
     ControlEvent.dropTechnician, ControlEvent.incoming 3]⟩
